import Mathlib

/-!
Verification of the orderbook reconstruction engine (MBO → MBP-10).

The definitions below are a shallow embedding of the C++ sources:
`include/types.hpp`, `include/orderbook.hpp`, `src/orderbook.cpp` and
`src/csv_parser.cpp`.  `std::map<price_t, ..., std::greater<price_t>>` is
modelled as an association list kept strictly descending by key;
`std::unordered_map` is modelled as an association list with
first-match lookup, in-place replacement and first-match erasure.
Sizes and counters are C++ `uint32_t`; their arithmetic is modelled
exactly, as `Nat` arithmetic reduced modulo `2^32` (`u32`, `u32sub`)
at every operation the source performs on a `uint32_t`.  Prices are
`int64_t`, modelled as `Int` (the source never does price arithmetic,
only comparisons).
-/

namespace LowLatency

/-! ## Data model (types.hpp) -/

/-- `enum class Action : char`.  In the source `CLEAR` and `REPLACE` are the
same enumerator value `'R'`, so the model has a single constructor for both. -/
inductive Action where
  | ADD | CANCEL | TRADE | FILL | REPLACE
deriving DecidableEq

/-- `enum class Side : char`. -/
inductive Side where
  | BID | ASK | NEUTRAL
deriving DecidableEq

/-- `RecordType::MBO == 160`; the field is modelled as a plain number because
the parser casts an arbitrary parsed integer into the enum. -/
def RecordTypeMBO : Nat := 160

/-- `RecordType::MBP == 10`. -/
def RecordTypeMBP : Nat := 10

/-- `struct Timestamp`. -/
structure Timestamp where
  ts_recv : Int
  ts_event : Int
deriving DecidableEq

/-- `struct MBORecord`. -/
structure MBORecord where
  timestamp : Timestamp
  rtype : Nat
  publisher_id : Nat
  instrument_id : Nat
  action : Action
  side : Side
  price : Int
  size : Nat
  channel_id : Nat
  order_id : Nat
  flags : Nat
  ts_in_delta : Nat
  sequence : Nat
  symbol : List Char
deriving DecidableEq

/-- `struct PriceLevel` — the output triple; default-constructed as the
all-zero sentinel `(0, 0, 0)`. -/
structure PriceLevel where
  price : Int
  size : Nat
  count : Nat
deriving DecidableEq

instance : Inhabited PriceLevel := ⟨⟨0, 0, 0⟩⟩

/-- `struct MBPRecord`. -/
structure MBPRecord where
  timestamp : Timestamp
  rtype : Nat
  publisher_id : Nat
  instrument_id : Nat
  action : Action
  side : Side
  depth : Nat
  price : Int
  size : Nat
  flags : Nat
  ts_in_delta : Nat
  sequence : Nat
  bid_levels : List PriceLevel
  ask_levels : List PriceLevel
  symbol : List Char
  order_id : Nat
deriving DecidableEq

/-! ## Association-list maps

`assocFind`, `assocInsert` and `assocErase` model `find`, `operator[]`
assignment and `erase` of the hash maps in the source: first-match lookup,
in-place replacement (append when absent) and first-match erasure. -/

def assocFind {α β : Type} [DecidableEq α] (k : α) : List (α × β) → Option β
  | [] => none
  | (k0, v0) :: rest => if k0 = k then some v0 else assocFind k rest

def assocInsert {α β : Type} [DecidableEq α] (k : α) (v : β) :
    List (α × β) → List (α × β)
  | [] => [(k, v)]
  | (k0, v0) :: rest =>
      if k0 = k then (k0, v) :: rest else (k0, v0) :: assocInsert k v rest

def assocErase {α β : Type} [DecidableEq α] (k : α) :
    List (α × β) → List (α × β)
  | [] => []
  | (k0, v0) :: rest =>
      if k0 = k then rest else (k0, v0) :: assocErase k rest

/-! ## Machine-integer arithmetic

`orderbook::size_t` is `std::uint32_t` and `order_count` is
`std::uint32_t`; every `+`, `-` and store on them wraps modulo `2^32`.
`u32sub a b` is the value of the C++ expression `a - b` on `uint32_t`
operands (both already reduced). -/

def U32 : Nat := 4294967296

def u32 (n : Nat) : Nat := n % U32

def u32sub (a b : Nat) : Nat := (a % U32 + (U32 - b % U32)) % U32

/-- `unsigned long` / `unsigned long long` are 64-bit on the LP64 targets
the Makefile builds; `std::stoul`/`std::stoull` throw `out_of_range` above
this bound. -/
def U64 : Nat := 18446744073709551616

/-- `2^16`, the modulus of `uint16_t` (`publisher_id_t`, `channel_id`,
the `RecordType` underlying type). -/
def U16 : Nat := 65536

/-! ## Side book (OrderbookSide) -/

/-- `struct OrderbookPriceLevel`: price, aggregated size, order count and the
per-level `unordered_map<order_id_t, size_t>` of member orders. -/
structure OrderbookPriceLevel where
  price : Int
  total_size : Nat
  order_count : Nat
  orders : List (Nat × Nat)
deriving DecidableEq

/-- Default-constructed `OrderbookPriceLevel` (what `levels_[price]` inserts
before the code mutates it). -/
def OrderbookPriceLevel.init : OrderbookPriceLevel := ⟨0, 0, 0, []⟩

/-- Insert-or-replace into the price-ordered `std::map` with the
`std::greater<price_t>` comparator: iteration order is strictly descending
by price, so an absent key is inserted in front of the first smaller key. -/
def levelsSet (p : Int) (L : OrderbookPriceLevel) :
    List (Int × OrderbookPriceLevel) → List (Int × OrderbookPriceLevel)
  | [] => [(p, L)]
  | (q, M) :: rest =>
      if p > q then (p, L) :: (q, M) :: rest
      else if p = q then (p, L) :: rest
      else (q, M) :: levelsSet p L rest

/-- One side of the book: the descending price map `levels_` and the
`order_lookup_` map `order_id ↦ (price, size)`. -/
structure OrderbookSide where
  levels : List (Int × OrderbookPriceLevel)
  order_lookup : List (Nat × (Int × Nat))
deriving DecidableEq

def OrderbookSide.init : OrderbookSide := ⟨[], []⟩

/-- `OrderbookSide::remove_level_if_empty`. -/
def remove_level_if_empty (price : Int)
    (ls : List (Int × OrderbookPriceLevel)) : List (Int × OrderbookPriceLevel) :=
  match assocFind price ls with
  | some L => if L.total_size = 0 then assocErase price ls else ls
  | none => ls

/-- The in-place mutation `update_level` performs on the level reference
(after `level.price = price` has been assigned): the add branch accumulates
size/count (`uint32_t` additions, wrapping) and overwrites the member
binding with the `uint32_t` value of the `size` parameter; the remove
branch clamps the decrement by the member's recorded size (a wrapping
`uint32_t` subtraction), always erases the membership, and zeroes
`order_count` when the aggregated size reaches zero (otherwise a wrapping
decrement). -/
def updatedLevel (L1 : OrderbookPriceLevel) (order_id : Nat) (size : Nat)
    (is_add : Bool) : OrderbookPriceLevel :=
  if is_add then
    { L1 with
      total_size := u32 (L1.total_size + size)
      order_count := u32 (L1.order_count + 1)
      orders := assocInsert order_id (u32 size) L1.orders }
  else
    match assocFind order_id L1.orders with
    | none => L1
    | some order_size =>
        let t := u32sub L1.total_size (min order_size (u32 size))
        { L1 with
          total_size := t
          orders := assocErase order_id L1.orders
          order_count := if t = 0 then 0 else u32sub L1.order_count 1 }

/-- `OrderbookSide::update_level`.  `levels_[price]` default-constructs an
absent level, the code then sets its `price` field and mutates it in place
(`updatedLevel`), and `remove_level_if_empty(price)` runs last. -/
def OrderbookSide.update_level (s : OrderbookSide) (price : Int)
    (order_id : Nat) (size : Nat) (is_add : Bool) : OrderbookSide :=
  let L0 := (assocFind price s.levels).getD OrderbookPriceLevel.init
  let L1 := { L0 with price := price }
  let L2 := updatedLevel L1 order_id size is_add
  { s with levels := remove_level_if_empty price (levelsSet price L2 s.levels) }

/-- `OrderbookSide::update_order_lookup`. -/
def OrderbookSide.update_order_lookup (s : OrderbookSide) (order_id : Nat)
    (price : Int) (size : Nat) (is_add : Bool) : OrderbookSide :=
  if is_add then
    { s with order_lookup :=
        assocInsert order_id (price, u32 size) s.order_lookup }
  else
    match assocFind order_id s.order_lookup with
    | none => s
    | some pr =>
        if u32 size ≥ pr.2 then
          { s with order_lookup := assocErase order_id s.order_lookup }
        else
          { s with order_lookup :=
              assocInsert order_id (pr.1, pr.2 - u32 size) s.order_lookup }

/-- `OrderbookSide::add_order`. -/
def OrderbookSide.add_order (s : OrderbookSide) (order_id : Nat) (price : Int)
    (size : Nat) : OrderbookSide :=
  (s.update_level price order_id size true).update_order_lookup order_id price size true

/-- `OrderbookSide::cancel_order`. -/
def OrderbookSide.cancel_order (s : OrderbookSide) (order_id : Nat) (price : Int)
    (size : Nat) : OrderbookSide :=
  (s.update_level price order_id size false).update_order_lookup order_id price size false

/-- `OrderbookSide::trade_order` (the `price` argument is unused in the
source as well). -/
def OrderbookSide.trade_order (s : OrderbookSide) (order_id : Nat) (_price : Int)
    (size : Nat) : OrderbookSide :=
  match assocFind order_id s.order_lookup with
  | none => s
  | some pr =>
      if u32 size ≥ pr.2 then
        (s.update_level pr.1 order_id pr.2 false).update_order_lookup order_id pr.1 pr.2 false
      else
        (s.update_level pr.1 order_id size false).update_order_lookup order_id pr.1 size false

/-- `OrderbookSide::has_order`. -/
def OrderbookSide.has_order (s : OrderbookSide) (order_id : Nat) : Bool :=
  (assocFind order_id s.order_lookup).isSome

/-- `MAX_DEPTH`. -/
def MAX_DEPTH : Nat := 10

/-- `OrderbookSide::get_top_levels`: the first ten levels in map iteration
order, remaining slots left default-constructed (the all-zero sentinel). -/
def OrderbookSide.get_top_levels (s : OrderbookSide) : List PriceLevel :=
  let occ := (s.levels.take MAX_DEPTH).map
    (fun e => PriceLevel.mk e.1 e.2.total_size e.2.order_count)
  occ ++ List.replicate (MAX_DEPTH - occ.length) default

/-- Aggregated size shown at a price on one side (0 when the level is absent). -/
def OrderbookSide.aggregated_size_at (s : OrderbookSide) (p : Int) : Nat :=
  ((assocFind p s.levels).map OrderbookPriceLevel.total_size).getD 0

/-! ## Book (Orderbook) -/

/-- `Orderbook::TradeSequence`. -/
structure TradeSequence where
  order_id : Nat
  side : Side
  price : Int
  remaining_size : Nat
  timestamp : Int
deriving DecidableEq

/-- The book: two side books plus the pending-trade table.  The performance
counters (`stats_`) are not modelled; no claim mentions them. -/
structure Orderbook where
  bid_side : OrderbookSide
  ask_side : OrderbookSide
  pending_trades : List (Nat × TradeSequence)
deriving DecidableEq

def Orderbook.init : Orderbook := ⟨OrderbookSide.init, OrderbookSide.init, []⟩

/-- `Orderbook::handle_add_order`. -/
def Orderbook.handle_add_order (b : Orderbook) (r : MBORecord) : Orderbook :=
  if r.side = Side.BID then
    { b with bid_side := b.bid_side.add_order r.order_id r.price r.size }
  else if r.side = Side.ASK then
    { b with ask_side := b.ask_side.add_order r.order_id r.price r.size }
  else b

/-- `Orderbook::handle_cancel_order`. -/
def Orderbook.handle_cancel_order (b : Orderbook) (r : MBORecord) : Orderbook :=
  if r.side = Side.BID then
    { b with bid_side := b.bid_side.cancel_order r.order_id r.price r.size }
  else if r.side = Side.ASK then
    { b with ask_side := b.ask_side.cancel_order r.order_id r.price r.size }
  else b

/-- `Orderbook::handle_trade_sequence`.  The `FILL` branch decrements the
pending size (a wrapping `uint32_t` subtraction).  The `CANCEL` branch
applies the pending size to the opposite side and erases the entry. -/
def Orderbook.handle_trade_sequence (b : Orderbook) (r : MBORecord) : Orderbook :=
  if r.action = Action.TRADE then
    let sq := TradeSequence.mk r.order_id r.side r.price (u32 r.size) r.timestamp.ts_event
    { b with pending_trades := assocInsert r.order_id sq b.pending_trades }
  else if r.action = Action.FILL then
    match assocFind r.order_id b.pending_trades with
    | none => b
    | some sq =>
        let sq1 := { sq with remaining_size := u32sub sq.remaining_size r.size }
        { b with pending_trades := assocInsert r.order_id sq1 b.pending_trades }
  else if r.action = Action.CANCEL then
    match assocFind r.order_id b.pending_trades with
    | none => b
    | some sq =>
        let opposite := if sq.side = Side.BID then Side.ASK else Side.BID
        let b1 :=
          if opposite = Side.BID then
            { b with bid_side :=
                b.bid_side.trade_order r.order_id sq.price sq.remaining_size }
          else
            { b with ask_side :=
                b.ask_side.trade_order r.order_id sq.price sq.remaining_size }
        { b1 with pending_trades := assocErase r.order_id b1.pending_trades }
  else b

/-- `Orderbook::process_mbo_record`.  Note the dispatch: `CANCEL` always goes
to `handle_cancel_order`; only `TRADE` and `FILL` reach
`handle_trade_sequence`, so that function's `CANCEL` branch is unreachable
from here.  `Action::CLEAR` is the enumerator `'R'` (`REPLACE`). -/
def Orderbook.process_mbo_record (b : Orderbook) (r : MBORecord) : Orderbook :=
  if r.action = Action.REPLACE ∧ r.sequence = 0 then b
  else
    match r.action with
    | Action.ADD => b.handle_add_order r
    | Action.CANCEL => b.handle_cancel_order r
    | Action.TRADE => b.handle_trade_sequence r
    | Action.FILL => b.handle_trade_sequence r
    | Action.REPLACE => b

/-- Fold a record stream through the book, first record first. -/
def processAll (rs : List MBORecord) (b : Orderbook) : Orderbook :=
  rs.foldl Orderbook.process_mbo_record b

/-- `Orderbook::generate_mbp_record` (a `const` method: it reads the two
sides and builds the output record without touching any state, which the
model reflects by being a plain function of the book). -/
def Orderbook.generate_mbp_record (b : Orderbook) (r : MBORecord) : MBPRecord :=
  { timestamp := r.timestamp
    rtype := RecordTypeMBP
    publisher_id := r.publisher_id
    instrument_id := r.instrument_id
    action := r.action
    side := r.side
    depth := 0
    price := r.price
    size := r.size
    flags := r.flags
    ts_in_delta := r.ts_in_delta
    sequence := r.sequence
    bid_levels := b.bid_side.get_top_levels
    ask_levels := b.ask_side.get_top_levels
    symbol := r.symbol
    order_id := r.order_id }

/-! ## CSV parser (csv_parser.cpp)

Lines are modelled as `List Char` (a `std::string` is a character sequence).
Only `parse_mbo_line` and its helpers are embedded; the formatting direction
is not needed by any claim. -/

/-- The splitting loop of `parse_mbo_line`: every segment before a comma is
pushed (empty ones included); the final segment is pushed only when
characters remain after the last comma (`start < view.size()`). -/
def splitFieldsAux (cur : List Char) : List Char → List (List Char)
  | [] => if cur.isEmpty then [] else [cur.reverse]
  | c :: cs =>
      if c = ',' then cur.reverse :: splitFieldsAux [] cs
      else splitFieldsAux (c :: cur) cs

def splitFields (l : List Char) : List (List Char) :=
  splitFieldsAux [] l

/-- Whitespace accepted by the `strtoul`/`strtod` family (`isspace`). -/
def isSpaceChar (c : Char) : Bool :=
  c = ' ' || c = '\t' || c = '\n' || c = '\r' ||
  c = Char.ofNat 11 || c = Char.ofNat 12

def isDigitChar (c : Char) : Bool :=
  '0' ≤ c && c ≤ '9'

def digitsValue (l : List Char) : Nat :=
  l.foldl (fun a c => a * 10 + (c.toNat - 48)) 0

/-- `std::stoul` / `std::stoull` (base 10, LP64: both 64-bit): skip
whitespace, an optional sign, then at least one decimal digit (trailing
junk ignored); `invalid_argument` when no digit follows, `out_of_range`
when the digit string exceeds `2^64 - 1` — both exceptions are caught by
`parse_mbo_line` and become `none` here.  A negative in-range input is
value-negated modulo `2^64` (the `strtoul` wrap). -/
def cppStoul (l : List Char) : Option Nat :=
  let l1 := l.dropWhile isSpaceChar
  let neg : Bool :=
    match l1 with
    | c :: _ => c = '-'
    | [] => false
  let l2 :=
    match l1 with
    | c :: rest => if c = '+' || c = '-' then rest else l1
    | [] => []
  match l2 with
  | c :: _ =>
      if isDigitChar c then
        let v := digitsValue (l2.takeWhile isDigitChar)
        if v ≥ U64 then none
        else some (if neg then (U64 - v) % U64 else v)
      else none
  | [] => none

/-- `CSVParser::parse_price`: the empty string maps to price 0 without any
conversion; otherwise `std::stod` ("C" locale) is applied and the value
scaled by 10^6 and truncated to `int64_t`.  The model is exact only on the
`pricePlain` fragment — plain decimals (optional whitespace and sign,
digits with an optional fractional part, at most 308 integer and 300
fractional digits, next character not an exponent/hex/inf/nan marker) —
where `stod` neither throws `out_of_range` nor reads past the plain
mantissa, and the `double` value of a 6-decimal feed price scales to the
integer computed here.  Outside that fragment `stod` diverges (it accepts
`inf`/`nan` and exponent/hex forms and throws `out_of_range` past
`DBL_MAX`), so C8 is stated only for `pricePlain` fields. -/
def cppParsePrice (l : List Char) : Option Int :=
  if l.isEmpty then some 0
  else
    let l1 := l.dropWhile isSpaceChar
    let l2 :=
      match l1 with
      | c :: rest => if c = '+' || c = '-' then rest else l1
      | [] => []
    let neg : Bool :=
      match l1 with
      | c :: _ => c = '-'
      | [] => false
    let intDigits := l2.takeWhile isDigitChar
    let l3 := l2.drop intDigits.length
    let fracDigits :=
      match l3 with
      | c :: rest => if c = '.' then rest.takeWhile isDigitChar else []
      | [] => []
    if intDigits.isEmpty && fracDigits.isEmpty then none
    else
      let frac6 := (fracDigits.take 6) ++ List.replicate (6 - (fracDigits.take 6).length) '0'
      let mag : Int := (digitsValue intDigits) * 1000000 + digitsValue frac6
      some (if neg then -mag else mag)

/-- Days from the civil date to 1970-01-01 (Gregorian).  `parse_timestamp`
calls `std::mktime`, which interprets the broken-down time in the process's
local time zone; the model fixes UTC.  No claim inspects a timestamp value. -/
def daysFromCivil (y m d : Int) : Int :=
  let y1 := if m ≤ 2 then y - 1 else y
  let era := (if y1 ≥ 0 then y1 else y1 - 399) / 400
  let yoe := y1 - era * 400
  let mp := (m + 9) % 12
  let doy := (153 * mp + 2) / 5 + d - 1
  let doe := yoe * 365 + yoe / 4 - yoe / 100 + doy
  era * 146097 + doe - 719468

/-- `CSVParser::parse_timestamp`: strings shorter than 23 characters map to
0; otherwise fixed character positions are converted by digit arithmetic
(no exception can escape), with nanoseconds read only when the string has
at least 30 characters. -/
def cppParseTimestamp (l : List Char) : Int :=
  if l.length < 23 then 0
  else
    let g : Nat → Int := fun i => ((l.getD i '0').toNat : Int) - 48
    let year := g 0 * 1000 + g 1 * 100 + g 2 * 10 + g 3
    let mon := g 5 * 10 + g 6
    let day := g 8 * 10 + g 9
    let hh := g 11 * 10 + g 12
    let mi := g 14 * 10 + g 15
    let ss := g 17 * 10 + g 18
    let secs := daysFromCivil year mon day * 86400 + hh * 3600 + mi * 60 + ss
    let nanos :=
      if l.length ≥ 30 then
        g 20 * 100000000 + g 21 * 10000000 + g 22 * 1000000 +
        g 23 * 100000 + g 24 * 10000 + g 25 * 1000 +
        g 26 * 100 + g 27 * 10 + g 28
      else 0
    secs * 1000000000 + nanos

/-- `CSVParser::parse_action`: unknown characters FALL BACK to `ADD`
instead of being rejected. -/
def parse_action (c : Char) : Action :=
  if c = 'A' then Action.ADD
  else if c = 'C' then Action.CANCEL
  else if c = 'T' then Action.TRADE
  else if c = 'F' then Action.FILL
  else if c = 'R' then Action.REPLACE
  else Action.ADD

/-- `CSVParser::parse_side`: unknown characters FALL BACK to `NEUTRAL`. -/
def parse_side (c : Char) : Side :=
  if c = 'B' then Side.BID
  else if c = 'A' then Side.ASK
  else if c = 'N' then Side.NEUTRAL
  else Side.NEUTRAL

/-- `field[0]` on a `std::string`: the first character, or the null
character when the field is empty (`operator[]` at `size()`). -/
def headChar (l : List Char) : Char :=
  l.headD (Char.ofNat 0)

/-- `CSVParser::parse_mbo_line`: `none` models the dropped row (empty line,
field count different from 15, or a `std::invalid_argument` or
`std::out_of_range` escaping one of the numeric conversions; the enclosing
try/catch turns any of those into `nullopt`).  The `static_cast`s into the
narrower record fields truncate modulo `2^16` (`rtype`, `publisher_id`,
`channel_id`) and `2^32` (`instrument_id`, `size`, `flags`,
`ts_in_delta`); `order_id` and `sequence` come from `stoull` and are
already below `2^64`.  The `price` cast `static_cast<price_t>(double)` is
undefined behaviour outside `int64_t` range; on the `pricePlain` fragment
used by C8 the exact value is kept. -/
def parse_mbo_line (l : List Char) : Option MBORecord :=
  if l.isEmpty then none
  else
    let fields := splitFields l
    if fields.length ≠ 15 then none
    else
      (cppStoul (fields.getD 2 [])).bind fun rty =>
      (cppStoul (fields.getD 3 [])).bind fun pub =>
      (cppStoul (fields.getD 4 [])).bind fun inst =>
      (cppParsePrice (fields.getD 7 [])).bind fun pr =>
      (cppStoul (fields.getD 8 [])).bind fun sz =>
      (cppStoul (fields.getD 9 [])).bind fun chan =>
      (cppStoul (fields.getD 10 [])).bind fun oid =>
      (cppStoul (fields.getD 11 [])).bind fun flg =>
      (cppStoul (fields.getD 12 [])).bind fun tsd =>
      (cppStoul (fields.getD 13 [])).bind fun sq =>
      some
        { timestamp := Timestamp.mk (cppParseTimestamp (fields.getD 0 []))
            (cppParseTimestamp (fields.getD 1 []))
          rtype := rty % U16
          publisher_id := pub % U16
          instrument_id := u32 inst
          action := parse_action (headChar (fields.getD 5 []))
          side := parse_side (headChar (fields.getD 6 []))
          price := pr
          size := u32 sz
          channel_id := chan % U16
          order_id := oid
          flags := u32 flg
          ts_in_delta := u32 tsd
          sequence := sq
          symbol := fields.getD 14 [] }

/-- The exact row-acceptance condition of `parse_mbo_line`: nonempty line,
exactly 15 split fields, and all eight `stoul`-parsed fields plus the price
field convert.  The action and side fields (5 and 6) do not appear. -/
def wellFormedRow (l : List Char) : Bool :=
  let fields := splitFields l
  !l.isEmpty && fields.length = 15 &&
  (cppStoul (fields.getD 2 [])).isSome && (cppStoul (fields.getD 3 [])).isSome &&
  (cppStoul (fields.getD 4 [])).isSome && (cppParsePrice (fields.getD 7 [])).isSome &&
  (cppStoul (fields.getD 8 [])).isSome && (cppStoul (fields.getD 9 [])).isSome &&
  (cppStoul (fields.getD 10 [])).isSome && (cppStoul (fields.getD 11 [])).isSome &&
  (cppStoul (fields.getD 12 [])).isSome && (cppStoul (fields.getD 13 [])).isSome

/-- The price-field fragment on which the `cppParsePrice` model of
`std::stod` is exact: empty (no conversion runs), or optional whitespace
and sign followed by a plain decimal mantissa of at most 308 integer and
300 fractional digits (no `out_of_range` either way) whose next character
is not an exponent or hex marker, or by a non-mantissa that is not the
start of an `inf`/`nan` form (so `stod` throws `invalid_argument` exactly
when the model returns `none`). -/
def pricePlain (l : List Char) : Bool :=
  if l.isEmpty then true
  else
    let l1 := l.dropWhile isSpaceChar
    let l2 :=
      match l1 with
      | c :: rest => if c = '+' || c = '-' then rest else l1
      | [] => []
    let intDigits := l2.takeWhile isDigitChar
    let l3 := l2.drop intDigits.length
    let fracDigits :=
      match l3 with
      | c :: rest => if c = '.' then rest.takeWhile isDigitChar else []
      | [] => []
    let tail :=
      match l3 with
      | c :: r2 => if c = '.' then r2.drop fracDigits.length else l3
      | [] => []
    if intDigits.isEmpty && fracDigits.isEmpty then
      match l2 with
      | c :: _ => !(c = 'i' || c = 'I' || c = 'n' || c = 'N')
      | [] => true
    else
      decide (intDigits.length ≤ 308) && decide (fracDigits.length ≤ 300) &&
      (match tail with
        | c :: _ => !(c = 'e' || c = 'E' || c = 'x' || c = 'X')
        | [] => true)

/-! ## Concrete scenarios used by the counterexamples and witnesses -/

/-- Template record for the concrete scenarios. -/
def baseRecord : MBORecord :=
  { timestamp := ⟨0, 0⟩, rtype := RecordTypeMBO, publisher_id := 1,
    instrument_id := 1, action := Action.ADD, side := Side.BID, price := 0,
    size := 0, channel_id := 0, order_id := 0, flags := 0, ts_in_delta := 0,
    sequence := 1, symbol := [] }

def mboAdd (sd : Side) (p : Int) (sz oid : Nat) : MBORecord :=
  { baseRecord with action := Action.ADD, side := sd, price := p, size := sz,
                    order_id := oid }

def mboCancel (sd : Side) (p : Int) (sz oid : Nat) : MBORecord :=
  { baseRecord with action := Action.CANCEL, side := sd, price := p, size := sz,
                    order_id := oid }

def mboTrade (sd : Side) (p : Int) (sz oid : Nat) : MBORecord :=
  { baseRecord with action := Action.TRADE, side := sd, price := p, size := sz,
                    order_id := oid }

/-- Book after `A,B,1000000,100,id=99` then the balanced trade pair
`T,A,1000000,40,id=99` and `C,A,1000000,40,id=99` (no intermediate fill). -/
def c1Book : Orderbook :=
  processAll
    [mboAdd Side.BID 1000000 100 99,
     mboTrade Side.ASK 1000000 40 99,
     mboCancel Side.ASK 1000000 40 99] Orderbook.init

/-- Book after `A,B,1000000,100,id=99` then `T,A,1000000,40,id=99` only. -/
def c1BookAfterTrade : Orderbook :=
  processAll
    [mboAdd Side.BID 1000000 100 99,
     mboTrade Side.ASK 1000000 40 99] Orderbook.init

/-- A reachable side state in which order 1 is a member of the level at
price 100 but absent from the order index: two adds of the same order id at
different prices leave a stale membership, and the later exact cancel
removes the index entry together with the second membership only. -/
def leakSide : OrderbookSide :=
  ((OrderbookSide.init.add_order 1 100 10).add_order 1 200 5).cancel_order 1 200 5

/-! ## C1 — balanced T then C consumes the resting side -/

/-- Claim C1 (code_bug): the dispatcher sends every `CANCEL` to
`handle_cancel_order`, so the trade-terminator branch of
`handle_trade_sequence` (and with it `trade_order`) is unreachable.  After a
balanced `T` (aggressor = ASK, size 40) then `C` on order 99 resting on the
bid at price 1000000 with size 100, the resting level still aggregates the
full 100 instead of 100 − 40 = 60, and the pending-trade entry is never
consumed.  Had the `C` event reached `handle_trade_sequence`, the book
would have shown 60 — the last conjunct evaluates that dead branch. -/
theorem C1_trade_sequence_eval :
    c1Book.bid_side.aggregated_size_at 1000000 = 100 ∧
    (assocFind 99 c1Book.pending_trades).isSome = true ∧
    (c1BookAfterTrade.handle_trade_sequence
        (mboCancel Side.ASK 1000000 40 99)).bid_side.aggregated_size_at 1000000 = 60 := by
  decide

/-! ## C2 — top-10 projections sorted per side -/

/-- Claim C2 (code_bug): both side books instantiate the one `OrderbookSide`
class, whose `levels_` map is fixed to the `std::greater` (descending)
comparator — the ascending map the header comments reserve for the ASK side
is commented out.  After two ask adds at 1010000 and 1020000 the ask top
levels come out in descending order, violating the claimed strictly
ascending ask projection. -/
theorem C2_ask_levels_eval :
    (((processAll [mboAdd Side.ASK 1010000 150 3, mboAdd Side.ASK 1020000 250 4]
        Orderbook.init).ask_side.get_top_levels.map PriceLevel.price).take 2)
      = [1020000, 1010000] := by
  decide

/-! ## C9 — snapshot mirrors the event header and mutates nothing -/

/-- Claim C9 (confirmed): `generate_mbp_record` is a `const` projection — the
model reflects this by being a plain function of the book — and every header
field of the produced record equals the corresponding input-event field,
with the record type set to MBP (10) and the depth field left 0. -/
theorem C9_snapshot_fields (b : Orderbook) (r : MBORecord) :
    (b.generate_mbp_record r).timestamp = r.timestamp ∧
    (b.generate_mbp_record r).sequence = r.sequence ∧
    (b.generate_mbp_record r).publisher_id = r.publisher_id ∧
    (b.generate_mbp_record r).instrument_id = r.instrument_id ∧
    (b.generate_mbp_record r).symbol = r.symbol ∧
    (b.generate_mbp_record r).flags = r.flags ∧
    (b.generate_mbp_record r).action = r.action ∧
    (b.generate_mbp_record r).side = r.side ∧
    (b.generate_mbp_record r).price = r.price ∧
    (b.generate_mbp_record r).size = r.size ∧
    (b.generate_mbp_record r).order_id = r.order_id ∧
    (b.generate_mbp_record r).ts_in_delta = r.ts_in_delta ∧
    (b.generate_mbp_record r).rtype = RecordTypeMBP ∧
    (b.generate_mbp_record r).depth = 0 :=
  ⟨rfl, rfl, rfl, rfl, rfl, rfl, rfl, rfl, rfl, rfl, rfl, rfl, rfl, rfl⟩

/-! ## C10 — NEUTRAL-side adds and cancels touch no side book -/

/-- Claim C10 (confirmed): `handle_add_order` and `handle_cancel_order`
dispatch only on `Side::BID` and `Side::ASK`; an add or cancel whose side is
`NEUTRAL` falls through both branches and leaves both side books unchanged. -/
theorem C10_neutral_frame (b : Orderbook) (r : MBORecord)
    (hside : r.side = Side.NEUTRAL)
    (hact : r.action = Action.ADD ∨ r.action = Action.CANCEL) :
    (b.process_mbo_record r).bid_side = b.bid_side ∧
    (b.process_mbo_record r).ask_side = b.ask_side := by
  rcases hact with h | h <;>
    simp [Orderbook.process_mbo_record, h, Orderbook.handle_add_order,
          Orderbook.handle_cancel_order, hside]

/-- Witness for C10 at a concrete neutral-side add on the initial book. -/
theorem C10_neutral_frame_witness :
    ((mboAdd Side.NEUTRAL 5 5 5).side = Side.NEUTRAL ∧
      ((mboAdd Side.NEUTRAL 5 5 5).action = Action.ADD ∨
        (mboAdd Side.NEUTRAL 5 5 5).action = Action.CANCEL)) ∧
    ((Orderbook.init.process_mbo_record (mboAdd Side.NEUTRAL 5 5 5)).bid_side
        = Orderbook.init.bid_side ∧
      (Orderbook.init.process_mbo_record (mboAdd Side.NEUTRAL 5 5 5)).ask_side
        = Orderbook.init.ask_side) :=
  ⟨⟨rfl, Or.inl rfl⟩,
    C10_neutral_frame Orderbook.init (mboAdd Side.NEUTRAL 5 5 5) rfl (Or.inl rfl)⟩

/-! ## Association-list lemmas -/

theorem assocFind_mem {α β : Type} [DecidableEq α] {k : α} {v : β}
    {l : List (α × β)} (h : assocFind k l = some v) : (k, v) ∈ l := by
  induction l with
  | nil => simp [assocFind] at h
  | cons e rest ih =>
      obtain ⟨k0, v0⟩ := e
      by_cases hk : k0 = k
      · subst hk
        simp [assocFind] at h
        subst h
        exact List.mem_cons_self _ _
      · simp [assocFind, hk] at h
        exact List.mem_cons_of_mem _ (ih h)

theorem assocErase_sublist {α β : Type} [DecidableEq α] (k : α)
    (l : List (α × β)) : (assocErase k l).Sublist l := by
  induction l with
  | nil => simp [assocErase]
  | cons e rest ih =>
      obtain ⟨k0, v0⟩ := e
      by_cases hk : k0 = k
      · rw [assocErase, if_pos hk]
        exact List.sublist_cons_self (k0, v0) rest
      · rw [assocErase, if_neg hk]
        exact List.Sublist.cons₂ (k0, v0) ih

theorem mem_assocErase {α β : Type} [DecidableEq α] {k : α} {e : α × β}
    {l : List (α × β)} (h : e ∈ assocErase k l) : e ∈ l :=
  (assocErase_sublist k l).mem h

theorem assocFind_assocInsert_self {α β : Type} [DecidableEq α] (k : α) (v : β)
    (l : List (α × β)) : assocFind k (assocInsert k v l) = some v := by
  induction l with
  | nil => simp [assocInsert, assocFind]
  | cons e rest ih =>
      obtain ⟨k0, v0⟩ := e
      by_cases hk : k0 = k
      · simp [assocInsert, assocFind, hk]
      · simp [assocInsert, assocFind, hk, ih]

theorem assocErase_assocInsert_of_find_none {α β : Type} [DecidableEq α]
    {k : α} (v : β) {l : List (α × β)} (h : assocFind k l = none) :
    assocErase k (assocInsert k v l) = l := by
  induction l with
  | nil => simp [assocInsert, assocErase]
  | cons e rest ih =>
      obtain ⟨k0, v0⟩ := e
      by_cases hk : k0 = k
      · simp [assocFind, hk] at h
      · simp [assocFind, hk] at h
        simp [assocInsert, assocErase, hk, ih h]

theorem assocFind_eq_none_of_not_mem {α β : Type} [DecidableEq α]
    {k : α} {l : List (α × β)} (h : k ∉ l.map Prod.fst) :
    assocFind k l = none := by
  induction l with
  | nil => rfl
  | cons e rest ih =>
      obtain ⟨k0, v0⟩ := e
      simp only [List.map_cons, List.mem_cons] at h
      push_neg at h
      rw [assocFind, if_neg (fun hh => h.1 hh.symm), ih h.2]

theorem assocErase_of_find_none {α β : Type} [DecidableEq α]
    {k : α} {l : List (α × β)} (h : assocFind k l = none) :
    assocErase k l = l := by
  induction l with
  | nil => rfl
  | cons e rest ih =>
      obtain ⟨k0, v0⟩ := e
      by_cases hk : k0 = k
      · rw [assocFind, if_pos hk] at h
        cases h
      · rw [assocFind, if_neg hk] at h
        rw [assocErase, if_neg hk, ih h]

theorem assocFind_assocErase_of_nodup {α β : Type} [DecidableEq α]
    {k : α} {l : List (α × β)} (h : (l.map Prod.fst).Nodup) :
    assocFind k (assocErase k l) = none := by
  induction l with
  | nil => simp [assocErase, assocFind]
  | cons e rest ih =>
      obtain ⟨k0, v0⟩ := e
      simp only [List.map_cons, List.nodup_cons] at h
      by_cases hk : k0 = k
      · subst hk
        rw [assocErase, if_pos rfl]
        exact assocFind_eq_none_of_not_mem h.1
      · rw [assocErase, if_neg hk, assocFind, if_neg hk]
        exact ih h.2

theorem ordersSum_assocInsert_le (k v : Nat) (l : List (Nat × Nat)) :
    ((assocInsert k v l).map Prod.snd).sum ≤ (l.map Prod.snd).sum + v := by
  induction l with
  | nil => simp [assocInsert]
  | cons e rest ih =>
      obtain ⟨k0, v0⟩ := e
      by_cases hk : k0 = k
      · simp only [assocInsert, if_pos hk, List.map_cons, List.sum_cons]
        omega
      · simp only [assocInsert, if_neg hk, List.map_cons, List.sum_cons]
        omega

theorem length_assocInsert_le {α β : Type} [DecidableEq α] (k : α) (v : β)
    (l : List (α × β)) : (assocInsert k v l).length ≤ l.length + 1 := by
  induction l with
  | nil => simp [assocInsert]
  | cons e rest ih =>
      obtain ⟨k0, v0⟩ := e
      by_cases hk : k0 = k
      · simp [assocInsert, hk]
      · simp only [assocInsert, if_neg hk, List.length_cons]
        omega

theorem ordersSum_assocErase {k m : Nat} {l : List (Nat × Nat)}
    (h : assocFind k l = some m) :
    (l.map Prod.snd).sum = m + ((assocErase k l).map Prod.snd).sum := by
  induction l with
  | nil => simp [assocFind] at h
  | cons e rest ih =>
      obtain ⟨k0, v0⟩ := e
      by_cases hk : k0 = k
      · simp [assocFind, hk] at h
        subst h
        simp [assocErase, hk]
      · simp [assocFind, hk] at h
        simp only [assocErase, if_neg hk, List.map_cons, List.sum_cons, ih h]
        omega

theorem length_assocErase {α β : Type} [DecidableEq α] {k : α} {m : β}
    {l : List (α × β)} (h : assocFind k l = some m) :
    l.length = (assocErase k l).length + 1 := by
  induction l with
  | nil => simp [assocFind] at h
  | cons e rest ih =>
      obtain ⟨k0, v0⟩ := e
      by_cases hk : k0 = k
      · simp [assocErase, hk]
      · simp [assocFind, hk] at h
        simp only [assocErase, if_neg hk, List.length_cons, ih h]

/-! ## Lemmas about the sorted level map -/

/-- The `std::map` with the `std::greater` comparator holds strictly
descending keys. -/
def KeysSorted (l : List (Int × OrderbookPriceLevel)) : Prop :=
  l.Pairwise (fun a b => b.1 < a.1)

instance (l : List (Int × OrderbookPriceLevel)) : Decidable (KeysSorted l) :=
  List.instDecidablePairwise l

theorem assocFind_levelsSet_self (p : Int) (L : OrderbookPriceLevel)
    (l : List (Int × OrderbookPriceLevel)) :
    assocFind p (levelsSet p L l) = some L := by
  induction l with
  | nil => simp [levelsSet, assocFind]
  | cons e rest ih =>
      obtain ⟨q, M⟩ := e
      by_cases hgt : p > q
      · simp [levelsSet, hgt, assocFind]
      · by_cases heq : p = q
        · simp [levelsSet, hgt, heq, assocFind]
        · have hqp : ¬ q = p := fun h => heq h.symm
          simp [levelsSet, hgt, heq, assocFind, hqp, ih]

theorem mem_levelsSet {p : Int} {L : OrderbookPriceLevel}
    {e : Int × OrderbookPriceLevel} {l : List (Int × OrderbookPriceLevel)}
    (h : e ∈ levelsSet p L l) : e = (p, L) ∨ e ∈ l := by
  induction l with
  | nil => simpa [levelsSet] using h
  | cons f rest ih =>
      obtain ⟨q, M⟩ := f
      by_cases hgt : p > q
      · simp only [levelsSet, if_pos hgt, List.mem_cons] at h
        rcases h with h | h | h
        · exact Or.inl h
        · exact Or.inr (by simp [h])
        · exact Or.inr (List.mem_cons_of_mem _ h)
      · by_cases heq : p = q
        · simp only [levelsSet, if_neg hgt, if_pos heq, List.mem_cons] at h
          rcases h with h | h
          · exact Or.inl h
          · exact Or.inr (List.mem_cons_of_mem _ h)
        · simp only [levelsSet, if_neg hgt, if_neg heq, List.mem_cons] at h
          rcases h with h | h
          · exact Or.inr (by simp [h])
          · rcases ih h with h | h
            · exact Or.inl h
            · exact Or.inr (List.mem_cons_of_mem _ h)

theorem keysSorted_levelsSet {p : Int} {L : OrderbookPriceLevel}
    {l : List (Int × OrderbookPriceLevel)} (h : KeysSorted l) :
    KeysSorted (levelsSet p L l) := by
  induction l with
  | nil => simp [levelsSet, KeysSorted]
  | cons e rest ih =>
      obtain ⟨q, M⟩ := e
      rw [KeysSorted, List.pairwise_cons] at h
      obtain ⟨hq, hrest⟩ := h
      by_cases hgt : p > q
      · rw [KeysSorted]
        simp only [levelsSet, if_pos hgt]
        refine List.Pairwise.cons ?_ (List.Pairwise.cons hq hrest)
        intro e he
        simp only [List.mem_cons] at he
        rcases he with he | he
        · simp [he]
          omega
        · have := hq e he
          simp at this ⊢
          omega
      · by_cases heq : p = q
        · subst heq
          rw [KeysSorted]
          simp only [levelsSet, if_neg hgt, if_pos rfl]
          refine List.Pairwise.cons ?_ hrest
          intro e he
          exact hq e he
        · have hlt : p < q := by omega
          rw [KeysSorted]
          simp only [levelsSet, if_neg hgt, if_neg heq]
          refine List.Pairwise.cons ?_ (ih hrest)
          intro e he
          rcases mem_levelsSet he with he | he
          · simp [he]
            omega
          · exact hq e he

theorem keysSorted_assocErase {p : Int} {l : List (Int × OrderbookPriceLevel)}
    (h : KeysSorted l) : KeysSorted (assocErase p l) :=
  List.Pairwise.sublist (assocErase_sublist p l) h

theorem mem_assocErase_of_sorted {p : Int} {e : Int × OrderbookPriceLevel}
    {l : List (Int × OrderbookPriceLevel)} (hs : KeysSorted l)
    (h : e ∈ assocErase p l) : e ∈ l ∧ e.1 ≠ p := by
  induction l with
  | nil => simp [assocErase] at h
  | cons f rest ih =>
      obtain ⟨q, M⟩ := f
      rw [KeysSorted, List.pairwise_cons] at hs
      obtain ⟨hq, hrest⟩ := hs
      by_cases hk : q = p
      · subst hk
        simp only [assocErase, if_pos rfl] at h
        refine ⟨List.mem_cons_of_mem _ h, ?_⟩
        have := hq e h
        simp at this
        omega
      · simp only [assocErase, if_neg hk, List.mem_cons] at h
        rcases h with h | h
        · exact ⟨by simp [h], by simp [h, hk]⟩
        · obtain ⟨hmem, hne⟩ := ih hrest h
          exact ⟨List.mem_cons_of_mem _ hmem, hne⟩

theorem assocFind_assocErase_of_sorted (p : Int)
    {l : List (Int × OrderbookPriceLevel)} (hs : KeysSorted l) :
    assocFind p (assocErase p l) = none := by
  cases hfind : assocFind p (assocErase p l) with
  | none => rfl
  | some L =>
      have := mem_assocErase_of_sorted hs (assocFind_mem hfind)
      simp at this

theorem assocErase_levelsSet_of_find_none (p : Int) (L : OrderbookPriceLevel)
    {l : List (Int × OrderbookPriceLevel)} (h : assocFind p l = none) :
    assocErase p (levelsSet p L l) = l := by
  induction l with
  | nil => simp [levelsSet, assocErase]
  | cons e rest ih =>
      obtain ⟨q, M⟩ := e
      by_cases hgt : p > q
      · simp [levelsSet, hgt, assocErase]
      · by_cases heq : p = q
        · rw [assocFind, if_pos heq.symm] at h
          cases h
        · have hqp : ¬ q = p := fun hh => heq hh.symm
          rw [assocFind, if_neg hqp] at h
          simp [levelsSet, hgt, heq, assocErase, hqp, ih h]

theorem levelsSet_self {p : Int} {L : OrderbookPriceLevel}
    {l : List (Int × OrderbookPriceLevel)} (hs : KeysSorted l)
    (h : assocFind p l = some L) : levelsSet p L l = l := by
  induction l with
  | nil => simp [assocFind] at h
  | cons e rest ih =>
      obtain ⟨q, M⟩ := e
      rw [KeysSorted, List.pairwise_cons] at hs
      obtain ⟨hq, hrest⟩ := hs
      by_cases heq : q = p
      · subst heq
        rw [assocFind, if_pos rfl] at h
        cases h
        simp [levelsSet]
      · rw [assocFind, if_neg heq] at h
        have hmem := assocFind_mem h
        have hlt : p < q := by
          have := hq _ hmem
          simpa using this
        have hgt : ¬ p > q := by omega
        have hne : ¬ p = q := by omega
        simp [levelsSet, hgt, hne, ih hrest h]

theorem assocErase_levelsSet_of_sorted (p : Int) (L : OrderbookPriceLevel)
    {l : List (Int × OrderbookPriceLevel)} (hs : KeysSorted l) :
    assocErase p (levelsSet p L l) = assocErase p l := by
  induction l with
  | nil => simp [levelsSet, assocErase]
  | cons e rest ih =>
      obtain ⟨q, M⟩ := e
      rw [KeysSorted, List.pairwise_cons] at hs
      obtain ⟨hq, hrest⟩ := hs
      by_cases hgt : p > q
      · have hqp : ¬ q = p := by omega
        have hnone : assocFind p rest = none := by
          refine assocFind_eq_none_of_not_mem ?_
          intro hmem
          obtain ⟨e, he, hfst⟩ := List.mem_map.1 hmem
          have := hq e he
          omega
        simp only [levelsSet, if_pos hgt, assocErase, if_pos rfl, if_neg hqp,
          if_true, eq_self_iff_true]
        rw [assocErase_of_find_none hnone]
      · by_cases heq : p = q
        · subst heq
          simp only [levelsSet, if_neg hgt, if_pos rfl, assocErase, if_pos rfl,
            if_true, eq_self_iff_true]
        · have hqp : ¬ q = p := fun hh => heq hh.symm
          simp only [levelsSet, if_neg hgt, if_neg heq, assocErase, if_neg hqp]
          rw [ih hrest]

theorem levelsSet_levelsSet (p : Int) (L1 L2 : OrderbookPriceLevel)
    (l : List (Int × OrderbookPriceLevel)) :
    levelsSet p L2 (levelsSet p L1 l) = levelsSet p L2 l := by
  induction l with
  | nil => simp [levelsSet]
  | cons e rest ih =>
      obtain ⟨q, M⟩ := e
      by_cases hgt : p > q
      · simp [levelsSet, hgt, lt_irrefl]
      · by_cases heq : p = q
        · simp [levelsSet, hgt, heq, lt_irrefl]
        · simp [levelsSet, hgt, heq, ih]

/-! ## uint32 arithmetic lemmas -/

theorem u32_lt (n : Nat) : u32 n < U32 :=
  Nat.mod_lt _ (by decide)

theorem u32_le (n : Nat) : u32 n ≤ n :=
  Nat.mod_le _ _

theorem u32_id {n : Nat} (h : n < U32) : u32 n = n :=
  Nat.mod_eq_of_lt h

theorem u32sub_exact {a b : Nat} (hb : b ≤ a) (ha : a < U32) :
    u32sub a b = a - b := by
  unfold u32sub
  rw [Nat.mod_eq_of_lt ha, Nat.mod_eq_of_lt (lt_of_le_of_lt hb ha)]
  have hbu : b ≤ U32 := le_of_lt (lt_of_le_of_lt hb ha)
  have h1 : a + (U32 - b) = (a - b) + U32 := by omega
  rw [h1, Nat.add_mod_right]
  exact Nat.mod_eq_of_lt (by omega)

theorem u32sub_self (a : Nat) : u32sub a a = 0 := by
  unfold u32sub U32
  omega

theorem u32_absorb (a b : Nat) : u32 (a + b) = u32 (a + u32 b) := by
  unfold u32 U32
  omega

/-! ## Level well-formedness (supports C3) -/

/-- Sum of the member sizes recorded inside one level. -/
def ordersSum (l : List (Nat × Nat)) : Nat := (l.map Prod.snd).sum

/-- What survives on every level of a reachable book in the absence of
32-bit overflow: the stored price equals the key, the aggregated size is
nonzero and bounds the sum of the member sizes from above, and the order
count bounds the number of members from above.  (The exact equalities of
the original claim fail; see the C3 counterexample.) -/
def LevelOK (p : Int) (L : OrderbookPriceLevel) : Prop :=
  L.price = p ∧ L.total_size ≠ 0 ∧ ordersSum L.orders ≤ L.total_size ∧
  L.orders.length ≤ L.order_count

instance (p : Int) (L : OrderbookPriceLevel) : Decidable (LevelOK p L) :=
  inferInstanceAs (Decidable (L.price = p ∧ L.total_size ≠ 0 ∧
    ordersSum L.orders ≤ L.total_size ∧ L.orders.length ≤ L.order_count))

def SideOK (s : OrderbookSide) : Prop :=
  KeysSorted s.levels ∧ ∀ e ∈ s.levels, LevelOK e.1 e.2

instance (s : OrderbookSide) : Decidable (SideOK s) :=
  inferInstanceAs (Decidable (KeysSorted s.levels ∧
    ∀ e ∈ s.levels, LevelOK e.1 e.2))

/-! ## Equation lemmas for the side operations -/

theorem update_level_of_find {s : OrderbookSide} {p : Int}
    {L : OrderbookPriceLevel} (hfind : assocFind p s.levels = some L)
    (oid sz : Nat) (b : Bool) :
    s.update_level p oid sz b =
      OrderbookSide.mk
        (remove_level_if_empty p
          (levelsSet p (updatedLevel { L with price := p } oid sz b) s.levels))
        s.order_lookup := by
  unfold OrderbookSide.update_level
  rw [hfind]
  rfl

theorem update_level_of_find_none {s : OrderbookSide} {p : Int}
    (hfind : assocFind p s.levels = none) (oid sz : Nat) (b : Bool) :
    s.update_level p oid sz b =
      OrderbookSide.mk
        (remove_level_if_empty p
          (levelsSet p (updatedLevel { OrderbookPriceLevel.init with price := p }
            oid sz b) s.levels))
        s.order_lookup := by
  unfold OrderbookSide.update_level
  rw [hfind]
  rfl

theorem updatedLevel_add (L1 : OrderbookPriceLevel) (oid sz : Nat) :
    updatedLevel L1 oid sz true =
      OrderbookPriceLevel.mk L1.price (u32 (L1.total_size + sz))
        (u32 (L1.order_count + 1))
        (assocInsert oid (u32 sz) L1.orders) := by
  unfold updatedLevel
  rw [if_pos rfl]

theorem updatedLevel_remove_found {L1 : OrderbookPriceLevel} {oid m : Nat}
    (hmem : assocFind oid L1.orders = some m) (sz : Nat) :
    updatedLevel L1 oid sz false =
      OrderbookPriceLevel.mk L1.price (u32sub L1.total_size (min m (u32 sz)))
        (if u32sub L1.total_size (min m (u32 sz)) = 0 then 0
          else u32sub L1.order_count 1)
        (assocErase oid L1.orders) := by
  unfold updatedLevel
  rw [if_neg Bool.false_ne_true, hmem]

theorem updatedLevel_remove_none {L1 : OrderbookPriceLevel} {oid : Nat}
    (hmem : assocFind oid L1.orders = none) (sz : Nat) :
    updatedLevel L1 oid sz false = L1 := by
  unfold updatedLevel
  rw [if_neg Bool.false_ne_true, hmem]

theorem remove_level_of_zero {ls : List (Int × OrderbookPriceLevel)} {p : Int}
    {L : OrderbookPriceLevel} (hf : assocFind p ls = some L)
    (hz : L.total_size = 0) : remove_level_if_empty p ls = assocErase p ls := by
  unfold remove_level_if_empty
  rw [hf]
  show (if L.total_size = 0 then assocErase p ls else ls) = assocErase p ls
  rw [if_pos hz]

theorem remove_level_of_ne {ls : List (Int × OrderbookPriceLevel)} {p : Int}
    {L : OrderbookPriceLevel} (hf : assocFind p ls = some L)
    (hz : L.total_size ≠ 0) : remove_level_if_empty p ls = ls := by
  unfold remove_level_if_empty
  rw [hf]
  show (if L.total_size = 0 then assocErase p ls else ls) = ls
  rw [if_neg hz]

theorem remove_level_of_none {ls : List (Int × OrderbookPriceLevel)} {p : Int}
    (hf : assocFind p ls = none) : remove_level_if_empty p ls = ls := by
  unfold remove_level_if_empty
  rw [hf]

theorem update_order_lookup_add (s : OrderbookSide) (oid : Nat) (p : Int)
    (sz : Nat) :
    s.update_order_lookup oid p sz true =
      OrderbookSide.mk s.levels
        (assocInsert oid (p, u32 sz) s.order_lookup) := by
  unfold OrderbookSide.update_order_lookup
  rw [if_pos rfl]

theorem update_order_lookup_remove_none {s : OrderbookSide} {oid : Nat}
    (hf : assocFind oid s.order_lookup = none) (p : Int) (sz : Nat) :
    s.update_order_lookup oid p sz false = s := by
  unfold OrderbookSide.update_order_lookup
  rw [if_neg Bool.false_ne_true, hf]

theorem update_order_lookup_remove_found {s : OrderbookSide} {oid : Nat}
    {pr : Int × Nat} (hf : assocFind oid s.order_lookup = some pr)
    (p : Int) (sz : Nat) :
    s.update_order_lookup oid p sz false =
      (if u32 sz ≥ pr.2 then
        OrderbookSide.mk s.levels (assocErase oid s.order_lookup)
      else
        OrderbookSide.mk s.levels
          (assocInsert oid (pr.1, pr.2 - u32 sz) s.order_lookup)) := by
  unfold OrderbookSide.update_order_lookup
  rw [if_neg Bool.false_ne_true, hf]

theorem update_order_lookup_levels (s : OrderbookSide) (oid : Nat) (p : Int)
    (sz : Nat) (b : Bool) :
    (s.update_order_lookup oid p sz b).levels = s.levels := by
  unfold OrderbookSide.update_order_lookup
  by_cases hb : b = true
  · rw [if_pos hb]
  · rw [if_neg hb]
    cases hf : assocFind oid s.order_lookup with
    | none => rfl
    | some pr =>
        dsimp only
        by_cases hge : u32 sz ≥ pr.2
        · rw [if_pos hge]
        · rw [if_neg hge]

theorem updatedLevel_price (L0 : OrderbookPriceLevel) (p : Int)
    (oid sz : Nat) (b : Bool) :
    (updatedLevel { L0 with price := p } oid sz b).price = p := by
  unfold updatedLevel
  split
  · rfl
  · split
    · rfl
    · rfl

/-! ## Reachable-state invariant with overflow budgets (supports C3)

`SideOKB s B C` strengthens `SideOK` by bounding every level aggregated
size by a budget `B` (the cumulative added size) and every level order
count by a budget `C` (the number of records applied).  While the budgets
stay below `2^32`, no `uint32_t` operation of the side book wraps, so the
aggregation bounds are preserved along any record stream. -/

def SideOKB (s : OrderbookSide) (B C : Nat) : Prop :=
  KeysSorted s.levels ∧
  ∀ e ∈ s.levels, LevelOK e.1 e.2 ∧ e.2.total_size ≤ B ∧ e.2.order_count ≤ C

def BookOKB (b : Orderbook) (B C : Nat) : Prop :=
  SideOKB b.bid_side B C ∧ SideOKB b.ask_side B C

theorem SideOKB_init (B C : Nat) : SideOKB OrderbookSide.init B C := by
  constructor
  · simp [KeysSorted, OrderbookSide.init]
  · intro e he
    simp [OrderbookSide.init] at he

theorem SideOKB_mono {s : OrderbookSide} {B C B2 C2 : Nat} (hB : B ≤ B2)
    (hC : C ≤ C2) (h : SideOKB s B C) : SideOKB s B2 C2 := by
  refine ⟨h.1, fun e he => ?_⟩
  obtain ⟨h1, h2, h3⟩ := h.2 e he
  exact ⟨h1, le_trans h2 hB, le_trans h3 hC⟩

theorem SideOKB_write {s : OrderbookSide} {B C : Nat} (h : SideOKB s B C)
    (p : Int) (L2 : OrderbookPriceLevel) (hp : L2.price = p)
    (hb : L2.total_size ≠ 0 →
      ordersSum L2.orders ≤ L2.total_size ∧
      L2.orders.length ≤ L2.order_count ∧
      L2.total_size ≤ B ∧ L2.order_count ≤ C) :
    KeysSorted (remove_level_if_empty p (levelsSet p L2 s.levels)) ∧
    ∀ e ∈ remove_level_if_empty p (levelsSet p L2 s.levels),
      LevelOK e.1 e.2 ∧ e.2.total_size ≤ B ∧ e.2.order_count ≤ C := by
  obtain ⟨hsort, hok⟩ := h
  have hsort1 : KeysSorted (levelsSet p L2 s.levels) := keysSorted_levelsSet hsort
  have hre : remove_level_if_empty p (levelsSet p L2 s.levels) =
      (if L2.total_size = 0 then assocErase p (levelsSet p L2 s.levels)
        else levelsSet p L2 s.levels) := by
    unfold remove_level_if_empty
    rw [assocFind_levelsSet_self p L2 s.levels]
  rw [hre]
  by_cases hz : L2.total_size = 0
  · rw [if_pos hz]
    refine ⟨keysSorted_assocErase hsort1, ?_⟩
    intro e he
    obtain ⟨he1, hne⟩ := mem_assocErase_of_sorted hsort1 he
    rcases mem_levelsSet he1 with he2 | he2
    · exact absurd (by rw [he2]) hne
    · exact hok e he2
  · rw [if_neg hz]
    refine ⟨hsort1, ?_⟩
    intro e he
    rcases mem_levelsSet he with he2 | he2
    · obtain ⟨hb1, hb2, hb3, hb4⟩ := hb hz
      rw [he2]
      exact ⟨⟨hp, hz, hb1, hb2⟩, hb3, hb4⟩
    · exact hok e he2

theorem boundsB_getD {s : OrderbookSide} {B C : Nat} (h : SideOKB s B C)
    (p : Int) :
    ordersSum ((assocFind p s.levels).getD OrderbookPriceLevel.init).orders
      ≤ ((assocFind p s.levels).getD OrderbookPriceLevel.init).total_size ∧
    ((assocFind p s.levels).getD OrderbookPriceLevel.init).orders.length
      ≤ ((assocFind p s.levels).getD OrderbookPriceLevel.init).order_count ∧
    ((assocFind p s.levels).getD OrderbookPriceLevel.init).total_size ≤ B ∧
    ((assocFind p s.levels).getD OrderbookPriceLevel.init).order_count ≤ C := by
  cases hf : assocFind p s.levels with
  | none => simp [OrderbookPriceLevel.init, ordersSum]
  | some L =>
      obtain ⟨hlok, h2, h3⟩ := h.2 _ (assocFind_mem hf)
      exact ⟨hlok.2.2.1, hlok.2.2.2, h2, h3⟩

theorem updatedLevelB_bounds_add (L0 : OrderbookPriceLevel) (p : Int)
    (oid sz B C : Nat)
    (hb0 : ordersSum L0.orders ≤ L0.total_size ∧
      L0.orders.length ≤ L0.order_count ∧
      L0.total_size ≤ B ∧ L0.order_count ≤ C)
    (hB : B + sz < U32) (hC : C + 1 < U32) :
    (updatedLevel { L0 with price := p } oid sz true).total_size ≠ 0 →
      ordersSum (updatedLevel { L0 with price := p } oid sz true).orders
        ≤ (updatedLevel { L0 with price := p } oid sz true).total_size ∧
      (updatedLevel { L0 with price := p } oid sz true).orders.length
        ≤ (updatedLevel { L0 with price := p } oid sz true).order_count ∧
      (updatedLevel { L0 with price := p } oid sz true).total_size ≤ B + sz ∧
      (updatedLevel { L0 with price := p } oid sz true).order_count ≤ C + 1 := by
  intro _
  obtain ⟨hb1, hb2, hb3, hb4⟩ := hb0
  rw [updatedLevel_add]
  dsimp only
  have ht : u32 (L0.total_size + sz) = L0.total_size + sz := u32_id (by omega)
  have hc : u32 (L0.order_count + 1) = L0.order_count + 1 := u32_id (by omega)
  rw [ht, hc]
  refine ⟨?_, ?_, by omega, by omega⟩
  · have h1 : ordersSum (assocInsert oid (u32 sz) L0.orders) ≤
        ordersSum L0.orders + u32 sz :=
      ordersSum_assocInsert_le oid (u32 sz) L0.orders
    have h2 := u32_le sz
    omega
  · have h1 := length_assocInsert_le oid (u32 sz) L0.orders
    omega

theorem updatedLevelB_bounds_remove (L0 : OrderbookPriceLevel) (p : Int)
    (oid sz B C : Nat)
    (hb0 : ordersSum L0.orders ≤ L0.total_size ∧
      L0.orders.length ≤ L0.order_count ∧
      L0.total_size ≤ B ∧ L0.order_count ≤ C)
    (hB : B < U32) (hC : C < U32) :
    (updatedLevel { L0 with price := p } oid sz false).total_size ≠ 0 →
      ordersSum (updatedLevel { L0 with price := p } oid sz false).orders
        ≤ (updatedLevel { L0 with price := p } oid sz false).total_size ∧
      (updatedLevel { L0 with price := p } oid sz false).orders.length
        ≤ (updatedLevel { L0 with price := p } oid sz false).order_count ∧
      (updatedLevel { L0 with price := p } oid sz false).total_size ≤ B ∧
      (updatedLevel { L0 with price := p } oid sz false).order_count ≤ C := by
  obtain ⟨hb1, hb2, hb3, hb4⟩ := hb0
  cases hfo : assocFind oid L0.orders with
  | none =>
      rw [updatedLevel_remove_none
        (show assocFind oid ({ L0 with price := p } : OrderbookPriceLevel).orders
          = none from hfo) sz]
      intro _
      exact ⟨hb1, hb2, hb3, hb4⟩
  | some m =>
      rw [updatedLevel_remove_found
        (show assocFind oid ({ L0 with price := p } : OrderbookPriceLevel).orders
          = some m from hfo) sz]
      dsimp only
      intro ht0
      have hsum : ordersSum L0.orders =
          m + ordersSum (assocErase oid L0.orders) := ordersSum_assocErase hfo
      have hlen := length_assocErase hfo
      have hmle : min m (u32 sz) ≤ L0.total_size := by
        have : m ≤ ordersSum L0.orders := by omega
        have h2 := Nat.min_le_left m (u32 sz)
        omega
      have htx : u32sub L0.total_size (min m (u32 sz)) =
          L0.total_size - min m (u32 sz) :=
        u32sub_exact hmle (lt_of_le_of_lt hb3 hB)
      have hc1 : 1 ≤ L0.order_count := by omega
      have hcx : u32sub L0.order_count 1 = L0.order_count - 1 :=
        u32sub_exact hc1 (lt_of_le_of_lt hb4 hC)
      have ht2 : L0.total_size - min m (u32 sz) ≠ 0 := by
        rw [htx] at ht0
        exact ht0
      rw [htx, if_neg ht2, hcx]
      refine ⟨by omega, by omega, by omega, by omega⟩

theorem SideOKB_update_level_add {s : OrderbookSide} {B C : Nat}
    (h : SideOKB s B C) (p : Int) (oid sz : Nat)
    (hB : B + sz < U32) (hC : C + 1 < U32) :
    SideOKB (s.update_level p oid sz true) (B + sz) (C + 1) := by
  have hb0 := boundsB_getD h p
  have hm := SideOKB_mono (Nat.le_add_right B sz) (Nat.le_add_right C 1) h
  exact SideOKB_write hm p _
    (updatedLevel_price _ p oid sz true)
    (updatedLevelB_bounds_add _ p oid sz B C hb0 hB hC)

theorem SideOKB_update_level_remove {s : OrderbookSide} {B C : Nat}
    (h : SideOKB s B C) (p : Int) (oid sz : Nat)
    (hB : B < U32) (hC : C < U32) :
    SideOKB (s.update_level p oid sz false) B C := by
  have hb0 := boundsB_getD h p
  exact SideOKB_write h p _
    (updatedLevel_price _ p oid sz false)
    (updatedLevelB_bounds_remove _ p oid sz B C hb0 hB hC)

theorem SideOKB_update_order_lookup {s : OrderbookSide} {B C : Nat}
    (h : SideOKB s B C) (oid : Nat) (p : Int) (sz : Nat) (b : Bool) :
    SideOKB (s.update_order_lookup oid p sz b) B C := by
  unfold SideOKB
  rw [update_order_lookup_levels]
  exact h

theorem SideOKB_add_order {s : OrderbookSide} {B C : Nat} (h : SideOKB s B C)
    (oid : Nat) (p : Int) (sz : Nat) (hB : B + sz < U32) (hC : C + 1 < U32) :
    SideOKB (s.add_order oid p sz) (B + sz) (C + 1) :=
  SideOKB_update_order_lookup (SideOKB_update_level_add h p oid sz hB hC)
    oid p sz true

theorem SideOKB_cancel_order {s : OrderbookSide} {B C : Nat} (h : SideOKB s B C)
    (oid : Nat) (p : Int) (sz : Nat) (hB : B < U32) (hC : C < U32) :
    SideOKB (s.cancel_order oid p sz) B C :=
  SideOKB_update_order_lookup (SideOKB_update_level_remove h p oid sz hB hC)
    oid p sz false

theorem SideOKB_trade_order {s : OrderbookSide} {B C : Nat} (h : SideOKB s B C)
    (oid : Nat) (p : Int) (sz : Nat) (hB : B < U32) (hC : C < U32) :
    SideOKB (s.trade_order oid p sz) B C := by
  unfold OrderbookSide.trade_order
  cases hf : assocFind oid s.order_lookup with
  | none => exact h
  | some pr =>
      dsimp only
      by_cases hge : u32 sz ≥ pr.2
      · rw [if_pos hge]
        exact SideOKB_update_order_lookup
          (SideOKB_update_level_remove h pr.1 oid pr.2 hB hC) oid pr.1 pr.2 false
      · rw [if_neg hge]
        exact SideOKB_update_order_lookup
          (SideOKB_update_level_remove h pr.1 oid sz hB hC) oid pr.1 sz false

theorem BookOKB_process {b : Orderbook} {B C : Nat} (h : BookOKB b B C)
    (r : MBORecord) (hB : B + r.size < U32) (hC : C + 1 < U32) :
    BookOKB (b.process_mbo_record r) (B + r.size) (C + 1) := by
  have hB0 : B < U32 := by omega
  have hC0 : C < U32 := by omega
  have hmono : ∀ s, SideOKB s B C → SideOKB s (B + r.size) (C + 1) :=
    fun s hs => SideOKB_mono (Nat.le_add_right _ _) (Nat.le_add_right _ _) hs
  unfold Orderbook.process_mbo_record
  by_cases hclear : r.action = Action.REPLACE ∧ r.sequence = 0
  · rw [if_pos hclear]
    exact ⟨hmono _ h.1, hmono _ h.2⟩
  · rw [if_neg hclear]
    cases hact : r.action with
    | ADD =>
        show BookOKB (b.handle_add_order r) _ _
        unfold Orderbook.handle_add_order
        by_cases hbb : r.side = Side.BID
        · rw [if_pos hbb]
          exact ⟨SideOKB_add_order h.1 _ _ _ hB hC, hmono _ h.2⟩
        · rw [if_neg hbb]
          by_cases ha : r.side = Side.ASK
          · rw [if_pos ha]
            exact ⟨hmono _ h.1, SideOKB_add_order h.2 _ _ _ hB hC⟩
          · rw [if_neg ha]
            exact ⟨hmono _ h.1, hmono _ h.2⟩
    | CANCEL =>
        show BookOKB (b.handle_cancel_order r) _ _
        unfold Orderbook.handle_cancel_order
        by_cases hbb : r.side = Side.BID
        · rw [if_pos hbb]
          exact ⟨hmono _ (SideOKB_cancel_order h.1 _ _ _ hB0 hC0), hmono _ h.2⟩
        · rw [if_neg hbb]
          by_cases ha : r.side = Side.ASK
          · rw [if_pos ha]
            exact ⟨hmono _ h.1, hmono _ (SideOKB_cancel_order h.2 _ _ _ hB0 hC0)⟩
          · rw [if_neg ha]
            exact ⟨hmono _ h.1, hmono _ h.2⟩
    | TRADE =>
        show BookOKB (b.handle_trade_sequence r) _ _
        unfold Orderbook.handle_trade_sequence
        rw [if_pos hact]
        exact ⟨hmono _ h.1, hmono _ h.2⟩
    | FILL =>
        show BookOKB (b.handle_trade_sequence r) _ _
        unfold Orderbook.handle_trade_sequence
        rw [if_neg (by simp [hact]), if_pos hact]
        cases hpf : assocFind r.order_id b.pending_trades with
        | none => exact ⟨hmono _ h.1, hmono _ h.2⟩
        | some sq => exact ⟨hmono _ h.1, hmono _ h.2⟩
    | REPLACE =>
        exact ⟨hmono _ h.1, hmono _ h.2⟩

/-- Total added size carried by a record stream. -/
def sumSizes (rs : List MBORecord) : Nat := (rs.map MBORecord.size).sum

theorem BookOKB_processAll (rs : List MBORecord) {b : Orderbook} {B C : Nat}
    (h : BookOKB b B C) (hB : B + sumSizes rs < U32)
    (hC : C + rs.length < U32) :
    BookOKB (processAll rs b) (B + sumSizes rs) (C + rs.length) := by
  induction rs generalizing b B C with
  | nil =>
      simpa [processAll, sumSizes] using h
  | cons r rest ih =>
      have hsum : sumSizes (r :: rest) = r.size + sumSizes rest := by
        simp [sumSizes]
      have hB1 : B + r.size < U32 := by
        rw [hsum] at hB
        omega
      have hC1 : C + 1 < U32 := by
        simp only [List.length_cons] at hC
        omega
      have hstep := BookOKB_process h r hB1 hC1
      have hrest := ih hstep
        (by rw [hsum] at hB; omega)
        (by simp only [List.length_cons] at hC; omega)
      have e1 : B + sumSizes (r :: rest) = B + r.size + sumSizes rest := by
        rw [hsum]
        omega
      have e2 : C + (r :: rest).length = C + 1 + rest.length := by
        simp only [List.length_cons]
        omega
      rw [e1, e2]
      exact hrest

theorem BookOKB_init (B C : Nat) : BookOKB Orderbook.init B C :=
  ⟨SideOKB_init B C, SideOKB_init B C⟩

/-! ## C3 — index coherence and aggregation invariant -/

/-- The two-record stream behind the C3 scenario: an add of order 1 (bid,
price 1000000, size 10) followed by a partial cancel of size 4 for the same
order. -/
def c3Rs : List MBORecord :=
  [mboAdd Side.BID 1000000 10 1, mboCancel Side.BID 1000000 4 1]

/-- Book after applying `c3Rs`. -/
def c3Book : Orderbook := processAll c3Rs Orderbook.init

/-- Counterexample to C3 as stated: after a reachable add-then-partial-cancel,
the bid index still holds order 1 with size 6 at price 1000000, but the level
at 1000000 has NO membership for it (index coherence fails), its
aggregated_size is 6 while the member-size sum is 0 (aggregation equality
fails), and its order_count is 0 (the claimed ≥ 1 fails). -/
theorem C3_counterexample :
    assocFind 1 c3Book.bid_side.order_lookup = some (1000000, 6) ∧
    assocFind 1000000 c3Book.bid_side.levels =
      some (OrderbookPriceLevel.mk 1000000 6 0 []) := by
  decide

/-- Claim C3 (corrected): after every sequence of applies from the initial
book whose total added size and record count stay below `2^32` (so that no
`uint32_t` accumulator of the side books wraps), what actually holds of
each side is `SideOK`: the level keys are strictly descending, and every
existing level has its stored price equal to its key, a nonzero
aggregated_size, aggregated_size at least the sum of the member sizes, and
order_count at least the number of members.  The exact equalities and the
two coherence directions of the original claim fail (see the
counterexample: a partial cancel erases the membership but keeps the index
entry, leaves the aggregated size above the member-size sum, and zeroes
the count), and past the `2^32` budgets even these inequalities are lost
to wrap-around. -/
theorem C3_amended_aggregation_bounds (rs : List MBORecord)
    (hsz : sumSizes rs < U32) (hlen : rs.length < U32) :
    SideOK (processAll rs Orderbook.init).bid_side ∧
    SideOK (processAll rs Orderbook.init).ask_side := by
  have h := BookOKB_processAll rs (BookOKB_init 0 0)
    (by simpa using hsz) (by simpa using hlen)
  exact ⟨⟨h.1.1, fun e he => (h.1.2 e he).1⟩,
    ⟨h.2.1, fun e he => (h.2.2 e he).1⟩⟩

/-- Witness for C3 on the concrete two-record stream `c3Rs`. -/
theorem C3_amended_witness :
    (sumSizes c3Rs < U32 ∧ c3Rs.length < U32) ∧
    (SideOK (processAll c3Rs Orderbook.init).bid_side ∧
      SideOK (processAll c3Rs Orderbook.init).ask_side) :=
  ⟨⟨by decide, by decide⟩,
    C3_amended_aggregation_bounds c3Rs (by decide) (by decide)⟩

/-! ## C4 — cancel semantics and the size_hint = 0 case -/

/-- Side with the single resting order 1 at price 100, size 10. -/
def c4Side : OrderbookSide := OrderbookSide.init.add_order 1 100 10

/-- Counterexample to C4 as stated: a cancel with `size_hint = 0` on an
indexed order of resting size 10 is NOT a full cancel — the index entry
survives with its full size and the level's aggregated size is unchanged
(the claim says the order is removed from the level and the index
entirely). -/
theorem C4_counterexample :
    (c4Side.cancel_order 1 100 0).has_order 1 = true ∧
    assocFind 1 (c4Side.cancel_order 1 100 0).order_lookup = some (100, 10) ∧
    (c4Side.cancel_order 1 100 0).aggregated_size_at 100 = 10 := by
  decide

/-- Levels after a cancel at a price whose level exists and records the
order with size `m`: the aggregated size drops by `min(m, sh)` (a wrapping
`uint32_t` subtraction), the membership and (one) count are removed, and
the level is erased when the aggregated size reaches zero. -/
theorem cancel_levels_found {s : OrderbookSide} {oid : Nat} {p : Int}
    {L : OrderbookPriceLevel} {m : Nat} (sh : Nat)
    (hsort : KeysSorted s.levels)
    (hfind : assocFind p s.levels = some L)
    (hmem : assocFind oid L.orders = some m) :
    (s.update_level p oid sh false).levels =
      (if u32sub L.total_size (min m (u32 sh)) = 0 then assocErase p s.levels
        else levelsSet p
          (OrderbookPriceLevel.mk p (u32sub L.total_size (min m (u32 sh)))
            (u32sub L.order_count 1) (assocErase oid L.orders)) s.levels) := by
  rw [update_level_of_find hfind oid sh false]
  dsimp only
  rw [updatedLevel_remove_found
    (show assocFind oid ({ L with price := p } : OrderbookPriceLevel).orders
      = some m from hmem) sh]
  dsimp only
  by_cases hz : u32sub L.total_size (min m (u32 sh)) = 0
  · rw [if_pos hz]
    rw [remove_level_of_zero (assocFind_levelsSet_self p _ s.levels) hz]
    rw [assocErase_levelsSet_of_sorted p _ hsort]
    rw [if_pos hz]
  · rw [if_neg hz]
    rw [remove_level_of_ne (assocFind_levelsSet_self p _ s.levels) hz]
    rw [if_neg hz]

/-- Order index after a cancel of an indexed order: erased when the
(truncated) hint covers the resting size, decremented in place
otherwise. -/
theorem cancel_lookup_found {s : OrderbookSide} {oid : Nat} {p0 : Int}
    {r : Nat} (p : Int) (sh : Nat)
    (hlook : assocFind oid s.order_lookup = some (p0, r)) :
    (s.cancel_order oid p sh).order_lookup =
      (if u32 sh ≥ r then assocErase oid s.order_lookup
        else assocInsert oid (p0, r - u32 sh) s.order_lookup) := by
  show ((s.update_level p oid sh false).update_order_lookup oid p sh false).order_lookup = _
  rw [@update_order_lookup_remove_found
    (s.update_level p oid sh false) oid (p0, r) hlook p sh]
  dsimp only
  by_cases hge : u32 sh ≥ r
  · rw [if_pos hge, if_pos hge]
    rfl
  · rw [if_neg hge, if_neg hge]
    rfl

/-- Claim C4 (corrected): for an order indexed with resting size `r` whose
level membership is coherent (the level at its price records the same size
`r`, bounded by the level aggregated size, all `uint32_t` quantities below
`2^32` so nothing wraps), a cancel with hint `sh` at that price decrements
the index entry and the level aggregated_size by `d = min(r, sh)` — but the
index entry is erased only when `sh ≥ r`, so `sh = 0` decrements nothing
and is NOT a full cancel; and independently of `sh` the order membership is
erased from the level, whose count drops by one (the level itself is erased
exactly when its aggregated size reaches 0). -/
theorem C4_amended (s : OrderbookSide) (oid : Nat) (p : Int) (r sh : Nat)
    (L : OrderbookPriceLevel)
    (hsort : KeysSorted s.levels)
    (hnod : (s.order_lookup.map Prod.fst).Nodup)
    (hlook : assocFind oid s.order_lookup = some (p, r))
    (hfind : assocFind p s.levels = some L)
    (hmem : assocFind oid L.orders = some r)
    (hle : r ≤ L.total_size) (htb : L.total_size < U32)
    (hc1 : 1 ≤ L.order_count) (hcb : L.order_count < U32)
    (hshb : sh < U32) :
    assocFind oid (s.cancel_order oid p sh).order_lookup =
      (if sh ≥ r then none else some (p, r - sh)) ∧
    (s.cancel_order oid p sh).aggregated_size_at p = L.total_size - min r sh ∧
    (s.cancel_order oid p sh).levels =
      (if L.total_size - min r sh = 0 then assocErase p s.levels
        else levelsSet p
          (OrderbookPriceLevel.mk p (L.total_size - min r sh)
            (L.order_count - 1) (assocErase oid L.orders)) s.levels) := by
  have hsh : u32 sh = sh := u32_id hshb
  have hlev : (s.cancel_order oid p sh).levels =
      (s.update_level p oid sh false).levels :=
    update_order_lookup_levels _ oid p sh false
  have hlev2 := cancel_levels_found sh hsort hfind hmem
  have htx : u32sub L.total_size (min r (u32 sh)) = L.total_size - min r sh := by
    rw [hsh]
    exact u32sub_exact (le_trans (Nat.min_le_left _ _) hle) htb
  have hcx : u32sub L.order_count 1 = L.order_count - 1 :=
    u32sub_exact hc1 hcb
  rw [htx, hcx] at hlev2
  have hlk := cancel_lookup_found p sh hlook
  rw [hsh] at hlk
  refine ⟨?_, ?_, ?_⟩
  · rw [hlk]
    by_cases hge : sh ≥ r
    · rw [if_pos hge, if_pos hge]
      exact assocFind_assocErase_of_nodup hnod
    · rw [if_neg hge, if_neg hge]
      exact assocFind_assocInsert_self oid _ _
  · show ((assocFind p (s.cancel_order oid p sh).levels).map
      OrderbookPriceLevel.total_size).getD 0 = _
    rw [hlev, hlev2]
    by_cases hz : L.total_size - min r sh = 0
    · rw [if_pos hz, assocFind_assocErase_of_sorted p hsort]
      simp [hz]
    · rw [if_neg hz, assocFind_levelsSet_self]
      rfl
  · rw [hlev, hlev2]

/-- Witness for C4 at the concrete side `c4Side` (order 1 resting at price
100 with size 10) and a partial hint of 4. -/
theorem C4_amended_witness :
    (KeysSorted c4Side.levels ∧
      (c4Side.order_lookup.map Prod.fst).Nodup ∧
      assocFind 1 c4Side.order_lookup = some (100, 10) ∧
      assocFind 100 c4Side.levels =
        some (OrderbookPriceLevel.mk 100 10 1 [(1, 10)]) ∧
      assocFind 1 (OrderbookPriceLevel.mk 100 10 1 [(1, 10)]).orders = some 10 ∧
      10 ≤ (OrderbookPriceLevel.mk 100 10 1 [(1, 10)]).total_size ∧
      (OrderbookPriceLevel.mk 100 10 1 [(1, 10)]).total_size < U32 ∧
      1 ≤ (OrderbookPriceLevel.mk 100 10 1 [(1, 10)]).order_count ∧
      (OrderbookPriceLevel.mk 100 10 1 [(1, 10)]).order_count < U32 ∧
      4 < U32) ∧
    (assocFind 1 (c4Side.cancel_order 1 100 4).order_lookup =
      (if 4 ≥ 10 then none else some (100, 10 - 4)) ∧
    (c4Side.cancel_order 1 100 4).aggregated_size_at 100 =
      (OrderbookPriceLevel.mk 100 10 1 [(1, 10)]).total_size - min 10 4 ∧
    (c4Side.cancel_order 1 100 4).levels =
      (if (OrderbookPriceLevel.mk 100 10 1 [(1, 10)]).total_size - min 10 4 = 0
        then assocErase 100 c4Side.levels
        else levelsSet 100
          (OrderbookPriceLevel.mk 100
            ((OrderbookPriceLevel.mk 100 10 1 [(1, 10)]).total_size - min 10 4)
            ((OrderbookPriceLevel.mk 100 10 1 [(1, 10)]).order_count - 1)
            (assocErase 1 (OrderbookPriceLevel.mk 100 10 1 [(1, 10)]).orders))
          c4Side.levels)) :=
  ⟨⟨by decide, by decide, by decide, by decide, by decide, by decide,
      by decide, by decide, by decide, by decide⟩,
    C4_amended c4Side 1 100 10 4 (OrderbookPriceLevel.mk 100 10 1 [(1, 10)])
      (by decide) (by decide) (by decide) (by decide) (by decide)
      (by decide) (by decide) (by decide) (by decide) (by decide)⟩

/-! ## C5 — duplicate add semantics -/

/-- Side after adding order 1 at price 100 size 10 and then again (duplicate
order id, same price) with size 20. -/
def c5Side : OrderbookSide :=
  (OrderbookSide.init.add_order 1 100 10).add_order 1 100 20

/-- Counterexample to C5 as stated: after the duplicate add, the level
aggregates 30 (10 + 20) and counts 2 orders, whereas remove-then-insert
semantics would give 20 and 1 — the prior contribution is not removed. -/
theorem C5_counterexample :
    c5Side.aggregated_size_at 100 = 30 ∧
    (assocFind 100 c5Side.levels).map OrderbookPriceLevel.order_count = some 2 ∧
    assocFind 1 c5Side.order_lookup = some (100, 20) := by
  decide

/-- Claim C5 (corrected): an add whose order id is already indexed
overwrites the index entry and the level membership with the new size, but
the level's aggregated_size grows by the full new size — the previously
tracked contribution is NOT removed — and order_count is incremented, so
the level double-counts the order. -/
theorem C5_amended (s : OrderbookSide) (oid : Nat) (p : Int) (sz : Nat)
    (pr0 : Int × Nat) (L : OrderbookPriceLevel)
    (_hsort : KeysSorted s.levels)
    (_hlook : assocFind oid s.order_lookup = some pr0)
    (hfind : assocFind p s.levels = some L)
    (ht : L.total_size ≠ 0)
    (hszB : L.total_size + sz < U32) (hcB : L.order_count + 1 < U32) :
    assocFind oid (s.add_order oid p sz).order_lookup = some (p, sz) ∧
    (s.add_order oid p sz).levels =
      levelsSet p
        (OrderbookPriceLevel.mk p (L.total_size + sz) (L.order_count + 1)
          (assocInsert oid sz L.orders)) s.levels ∧
    (s.add_order oid p sz).aggregated_size_at p = L.total_size + sz ∧
    assocFind oid
      ((assocFind p (s.add_order oid p sz).levels).getD
        OrderbookPriceLevel.init).orders = some sz := by
  have hszb : sz < U32 := by omega
  have hlev : (s.add_order oid p sz).levels =
      levelsSet p
        (OrderbookPriceLevel.mk p (L.total_size + sz) (L.order_count + 1)
          (assocInsert oid sz L.orders)) s.levels := by
    have h0 : (s.add_order oid p sz).levels = (s.update_level p oid sz true).levels :=
      update_order_lookup_levels _ oid p sz true
    rw [h0, update_level_of_find hfind oid sz true]
    dsimp only
    rw [updatedLevel_add]
    dsimp only
    rw [u32_id hszB, u32_id hcB, u32_id hszb]
    exact remove_level_of_ne (assocFind_levelsSet_self p _ s.levels)
      (fun hh => ht (Nat.eq_zero_of_add_eq_zero_right hh))
  have hlk : (s.add_order oid p sz).order_lookup =
      assocInsert oid (p, sz) s.order_lookup := by
    show ((s.update_level p oid sz true).update_order_lookup oid p sz true).order_lookup = _
    rw [update_order_lookup_add]
    dsimp only
    rw [u32_id hszb]
    rfl
  refine ⟨?_, hlev, ?_, ?_⟩
  · rw [hlk]
    exact assocFind_assocInsert_self oid _ _
  · show ((assocFind p (s.add_order oid p sz).levels).map
      OrderbookPriceLevel.total_size).getD 0 = _
    rw [hlev, assocFind_levelsSet_self]
    rfl
  · rw [hlev, assocFind_levelsSet_self]
    exact assocFind_assocInsert_self oid _ _

/-- Witness for C5: duplicate add of order 1 (price 100, new size 20) on the
side where it already rests with size 10. -/
theorem C5_amended_witness :
    (KeysSorted c4Side.levels ∧
      assocFind 1 c4Side.order_lookup = some (100, 10) ∧
      assocFind 100 c4Side.levels =
        some (OrderbookPriceLevel.mk 100 10 1 [(1, 10)]) ∧
      (OrderbookPriceLevel.mk 100 10 1 [(1, 10)]).total_size ≠ 0 ∧
      (OrderbookPriceLevel.mk 100 10 1 [(1, 10)]).total_size + 20 < U32 ∧
      (OrderbookPriceLevel.mk 100 10 1 [(1, 10)]).order_count + 1 < U32) ∧
    (assocFind 1 (c4Side.add_order 1 100 20).order_lookup = some (100, 20) ∧
    (c4Side.add_order 1 100 20).levels =
      levelsSet 100
        (OrderbookPriceLevel.mk 100
          ((OrderbookPriceLevel.mk 100 10 1 [(1, 10)]).total_size + 20)
          ((OrderbookPriceLevel.mk 100 10 1 [(1, 10)]).order_count + 1)
          (assocInsert 1 20 (OrderbookPriceLevel.mk 100 10 1 [(1, 10)]).orders))
        c4Side.levels ∧
    (c4Side.add_order 1 100 20).aggregated_size_at 100 =
      (OrderbookPriceLevel.mk 100 10 1 [(1, 10)]).total_size + 20 ∧
    assocFind 1
      ((assocFind 100 (c4Side.add_order 1 100 20).levels).getD
        OrderbookPriceLevel.init).orders = some 20) :=
  ⟨⟨by decide, by decide, by decide, by decide, by decide, by decide⟩,
    C5_amended c4Side 1 100 20 (100, 10) (OrderbookPriceLevel.mk 100 10 1 [(1, 10)])
      (by decide) (by decide) (by decide) (by decide) (by decide) (by decide)⟩

/-! ## C6 — unknown-order cancels -/

/-- Counterexample to C6 as stated: in the reachable state `leakSide`
order 1 is absent from the order index, yet a cancel naming it at price 100
mutates the side (the stale level membership left behind by an earlier
duplicate-add/cancel pair is consumed). -/
theorem C6_counterexample :
    leakSide.has_order 1 = false ∧
    leakSide.cancel_order 1 100 10 ≠ leakSide := by
  decide

/-- The condition under which a cancel naming an untracked order really
leaves the side alone: the level at the cancel price, when it exists, has a
coherent price field, a nonzero aggregated size, and no stale membership
for the order. -/
def cancelUntracked (s : OrderbookSide) (oid : Nat) (p : Int) : Bool :=
  match assocFind p s.levels with
  | some L => (L.price == p) && (L.total_size != 0) && (assocFind oid L.orders).isNone
  | none => true

/-- Claim C6 (corrected): a cancel whose order id is not in the order index
is a no-op provided the order is also not a stale member of the level at the
cancel price (and the side is well formed); without that proviso the claim
fails on reachable states — see the counterexample. -/
theorem C6_amended (s : OrderbookSide) (oid : Nat) (p : Int) (sh : Nat)
    (hlook : assocFind oid s.order_lookup = none)
    (hsort : KeysSorted s.levels)
    (hsafe : cancelUntracked s oid p = true) :
    s.cancel_order oid p sh = s := by
  have h1 : s.update_level p oid sh false = s := by
    unfold cancelUntracked at hsafe
    cases hf : assocFind p s.levels with
    | none =>
        rw [update_level_of_find_none hf oid sh false]
        rw [updatedLevel_remove_none
          (show assocFind oid
            ({ OrderbookPriceLevel.init with price := p } : OrderbookPriceLevel).orders
            = none from rfl) sh]
        rw [remove_level_of_zero (assocFind_levelsSet_self p _ s.levels) rfl]
        rw [assocErase_levelsSet_of_find_none p _ hf]
    | some L =>
        rw [hf] at hsafe
        have hsafe2 : L.price = p ∧ L.total_size ≠ 0 ∧ assocFind oid L.orders = none := by
          simp only [Bool.and_eq_true, beq_iff_eq, bne_iff_ne,
            Option.isNone_iff_eq_none] at hsafe
          exact ⟨hsafe.1.1, hsafe.1.2, hsafe.2⟩
        obtain ⟨hprice, ht, hmem⟩ := hsafe2
        have hLeq : ({ L with price := p } : OrderbookPriceLevel) = L := by
          rw [← hprice]
        rw [update_level_of_find hf oid sh false]
        rw [updatedLevel_remove_none
          (show assocFind oid
            ({ L with price := p } : OrderbookPriceLevel).orders = none from hmem) sh]
        rw [hLeq, levelsSet_self hsort hf, remove_level_of_ne hf ht]
  show (s.update_level p oid sh false).update_order_lookup oid p sh false = s
  rw [h1]
  exact update_order_lookup_remove_none hlook p sh

/-- Witness for C6: cancelling the unknown order 9 at the occupied price 100
of `c4Side` leaves the side unchanged. -/
theorem C6_amended_witness :
    (assocFind 9 c4Side.order_lookup = none ∧
      KeysSorted c4Side.levels ∧
      cancelUntracked c4Side 9 100 = true) ∧
    c4Side.cancel_order 9 100 5 = c4Side :=
  ⟨⟨by decide, by decide, by decide⟩,
    C6_amended c4Side 9 100 5 (by decide) (by decide) (by decide)⟩

/-! ## C7 — add then exact cancel restores the side -/

theorem sideExt {a b : OrderbookSide} (h1 : a.levels = b.levels)
    (h2 : a.order_lookup = b.order_lookup) : a = b := by
  cases a
  cases b
  cases h1
  cases h2
  rfl

/-- A cancel at a price with no level is a no-op on the level map (the
transiently default-constructed level is erased again). -/
theorem cancel_levels_none {s : OrderbookSide} {oid : Nat} {p : Int} (sh : Nat)
    (hf : assocFind p s.levels = none) :
    (s.update_level p oid sh false).levels = s.levels := by
  rw [update_level_of_find_none hf oid sh false]
  rw [updatedLevel_remove_none
    (show assocFind oid
      ({ OrderbookPriceLevel.init with price := p } : OrderbookPriceLevel).orders
      = none from rfl) sh]
  rw [remove_level_of_zero (assocFind_levelsSet_self p _ s.levels) rfl]
  exact assocErase_levelsSet_of_find_none p _ hf

/-- Counterexample to C7 as stated: in the reachable state `leakSide`
order 1 is not indexed, yet adding it at price 100 (size 7) and cancelling
the same (order_id, price, size) does not restore the side — the stale
membership of order 1 at that level is destroyed by the pair. -/
theorem C7_counterexample :
    leakSide.has_order 1 = false ∧
    (leakSide.add_order 1 100 7).cancel_order 1 100 7 ≠ leakSide := by
  decide

/-- The record pair of the boundary scenario: an add and its exact cancel on
an otherwise empty book. -/
def c7Pair : List MBORecord :=
  [mboAdd Side.BID 1000000 100 1, mboCancel Side.BID 1000000 100 1]

/-- The bounds under which an add at `price` for `size` does not wrap the
`uint32_t` accumulators of the touched level. -/
def addFits (s : OrderbookSide) (p : Int) (sz : Nat) : Bool :=
  match assocFind p s.levels with
  | some L => decide (L.total_size + u32 sz < U32) &&
      decide (L.order_count + 1 < U32)
  | none => true

/-- Claim C7 (corrected): when the order id is neither indexed nor a stale
member of the level at the add price (`cancelUntracked`), and the add does
not wrap the level accumulators (`addFits`), applying
`add(order_id, price, size)` and then the exact cancel restores the side
state; on the initially empty book the pair leaves both top-10 projections
all sentinel.  Without the no-stale-membership proviso the restoration
fails on reachable states — see the counterexample — and without the
no-wrap proviso an add that carries the level aggregated size to a
multiple of `2^32` erases the level with its members, which the cancel
cannot restore. -/
theorem C7_amended :
    (∀ (s : OrderbookSide) (oid : Nat) (p : Int) (sz : Nat),
      assocFind oid s.order_lookup = none →
      KeysSorted s.levels →
      cancelUntracked s oid p = true →
      addFits s p sz = true →
      (s.add_order oid p sz).cancel_order oid p sz = s) ∧
    ((processAll c7Pair Orderbook.init).bid_side.get_top_levels =
        List.replicate 10 default ∧
      (processAll c7Pair Orderbook.init).ask_side.get_top_levels =
        List.replicate 10 default) := by
  constructor
  · intro s oid p sz hlook hsort hsafe hfits
    have hs2lk : (s.add_order oid p sz).order_lookup =
        assocInsert oid (p, u32 sz) s.order_lookup := by
      show ((s.update_level p oid sz true).update_order_lookup oid p sz true).order_lookup = _
      rw [update_order_lookup_add]
      rfl
    have hfound : assocFind oid (s.add_order oid p sz).order_lookup =
        some (p, u32 sz) := by
      rw [hs2lk]
      exact assocFind_assocInsert_self oid _ _
    have hlk3 : ((s.add_order oid p sz).cancel_order oid p sz).order_lookup =
        s.order_lookup := by
      rw [cancel_lookup_found p sz hfound]
      rw [if_pos (le_refl (u32 sz)), hs2lk]
      exact assocErase_assocInsert_of_find_none _ hlook
    have hlev3 : ((s.add_order oid p sz).cancel_order oid p sz).levels =
        s.levels := by
      have h0 : ((s.add_order oid p sz).cancel_order oid p sz).levels =
          ((s.add_order oid p sz).update_level p oid sz false).levels :=
        update_order_lookup_levels _ oid p sz false
      rw [h0]
      unfold cancelUntracked at hsafe
      unfold addFits at hfits
      cases hf : assocFind p s.levels with
      | none =>
          by_cases hz : u32 sz = 0
          · have hz2 : (updatedLevel { OrderbookPriceLevel.init with price := p }
                oid sz true).total_size = 0 := by
              rw [updatedLevel_add]
              show u32 (OrderbookPriceLevel.init.total_size + sz) = 0
              simpa [OrderbookPriceLevel.init] using hz
            have hs2lev : (s.add_order oid p sz).levels = s.levels := by
              have h1 : (s.add_order oid p sz).levels =
                  (s.update_level p oid sz true).levels :=
                update_order_lookup_levels _ oid p sz true
              rw [h1, update_level_of_find_none hf oid sz true]
              dsimp only
              rw [remove_level_of_zero (assocFind_levelsSet_self p _ s.levels) hz2]
              exact assocErase_levelsSet_of_find_none p _ hf
            have hf2 : assocFind p (s.add_order oid p sz).levels = none := by
              rw [hs2lev]
              exact hf
            rw [cancel_levels_none sz hf2]
            exact hs2lev
          · have hz2 : (updatedLevel { OrderbookPriceLevel.init with price := p }
                oid sz true).total_size ≠ 0 := by
              rw [updatedLevel_add]
              show u32 (OrderbookPriceLevel.init.total_size + sz) ≠ 0
              simpa [OrderbookPriceLevel.init] using hz
            have hs2lev : (s.add_order oid p sz).levels =
                levelsSet p (updatedLevel
                  { OrderbookPriceLevel.init with price := p } oid sz true)
                  s.levels := by
              have h1 : (s.add_order oid p sz).levels =
                  (s.update_level p oid sz true).levels :=
                update_order_lookup_levels _ oid p sz true
              rw [h1, update_level_of_find_none hf oid sz true]
              dsimp only
              exact remove_level_of_ne (assocFind_levelsSet_self p _ s.levels) hz2
            have hf2 : assocFind p (s.add_order oid p sz).levels =
                some (updatedLevel { OrderbookPriceLevel.init with price := p }
                  oid sz true) := by
              rw [hs2lev]
              exact assocFind_levelsSet_self p _ s.levels
            have hsort2 : KeysSorted (s.add_order oid p sz).levels := by
              rw [hs2lev]
              exact keysSorted_levelsSet hsort
            have hmem2 : assocFind oid (updatedLevel
                { OrderbookPriceLevel.init with price := p } oid sz true).orders =
                some (u32 sz) := by
              rw [updatedLevel_add]
              exact assocFind_assocInsert_self oid _ _
            rw [cancel_levels_found sz hsort2 hf2 hmem2]
            have hzz : u32sub (updatedLevel
                { OrderbookPriceLevel.init with price := p } oid sz true).total_size
                (min (u32 sz) (u32 sz)) = 0 := by
              rw [Nat.min_self, updatedLevel_add]
              show u32sub (u32 (OrderbookPriceLevel.init.total_size + sz))
                (u32 sz) = 0
              have he : u32 (OrderbookPriceLevel.init.total_size + sz) = u32 sz := by
                simp [OrderbookPriceLevel.init]
              rw [he]
              exact u32sub_self _
            rw [if_pos hzz, hs2lev]
            rw [assocErase_levelsSet_of_sorted p _ hsort]
            exact assocErase_of_find_none hf
      | some L =>
          rw [hf] at hsafe hfits
          have hsafe2 : L.price = p ∧ L.total_size ≠ 0 ∧
              assocFind oid L.orders = none := by
            simp only [Bool.and_eq_true, beq_iff_eq, bne_iff_ne,
              Option.isNone_iff_eq_none] at hsafe
            exact ⟨hsafe.1.1, hsafe.1.2, hsafe.2⟩
          obtain ⟨hprice, ht, hmem⟩ := hsafe2
          have hfits2 : L.total_size + u32 sz < U32 ∧ L.order_count + 1 < U32 := by
            simp only [Bool.and_eq_true, decide_eq_true_eq] at hfits
            exact hfits
          obtain ⟨htB, hcB⟩ := hfits2
          have htt : u32 (L.total_size + sz) = L.total_size + u32 sz := by
            rw [u32_absorb]
            exact u32_id htB
          have hcc : u32 (L.order_count + 1) = L.order_count + 1 := u32_id hcB
          have hs2lev : (s.add_order oid p sz).levels =
              levelsSet p
                (OrderbookPriceLevel.mk p (L.total_size + u32 sz)
                  (L.order_count + 1) (assocInsert oid (u32 sz) L.orders))
                s.levels := by
            have h1 : (s.add_order oid p sz).levels =
                (s.update_level p oid sz true).levels :=
              update_order_lookup_levels _ oid p sz true
            rw [h1, update_level_of_find hf oid sz true]
            dsimp only
            rw [updatedLevel_add]
            dsimp only
            rw [htt, hcc]
            have hne : (OrderbookPriceLevel.mk p (L.total_size + u32 sz)
                (L.order_count + 1) (assocInsert oid (u32 sz) L.orders)).total_size
                ≠ 0 := by
              show L.total_size + u32 sz ≠ 0
              omega
            exact remove_level_of_ne (assocFind_levelsSet_self p _ s.levels) hne
          have hf2 : assocFind p (s.add_order oid p sz).levels =
              some (OrderbookPriceLevel.mk p (L.total_size + u32 sz)
                (L.order_count + 1) (assocInsert oid (u32 sz) L.orders)) := by
            rw [hs2lev]
            exact assocFind_levelsSet_self p _ s.levels
          have hsort2 : KeysSorted (s.add_order oid p sz).levels := by
            rw [hs2lev]
            exact keysSorted_levelsSet hsort
          have hmem2 : assocFind oid (OrderbookPriceLevel.mk p
              (L.total_size + u32 sz) (L.order_count + 1)
              (assocInsert oid (u32 sz) L.orders)).orders = some (u32 sz) :=
            assocFind_assocInsert_self oid _ _
          rw [cancel_levels_found sz hsort2 hf2 hmem2]
          dsimp only
          have he1 : u32sub (L.total_size + u32 sz) (min (u32 sz) (u32 sz)) =
              L.total_size := by
            rw [Nat.min_self, u32sub_exact (Nat.le_add_left _ _) htB]
            omega
          rw [he1, if_neg ht]
          have he2 : u32sub (L.order_count + 1) 1 = L.order_count := by
            rw [u32sub_exact (Nat.le_add_left 1 L.order_count) hcB]
            omega
          rw [he2]
          have he3 : assocErase oid (assocInsert oid (u32 sz) L.orders) =
              L.orders := assocErase_assocInsert_of_find_none _ hmem
          rw [he3]
          have he4 : OrderbookPriceLevel.mk p L.total_size L.order_count L.orders
              = L := by
            rw [← hprice]
          rw [he4, hs2lev]
          rw [levelsSet_levelsSet]
          rw [levelsSet_self hsort hf]
    exact sideExt hlev3 hlk3
  · constructor
    · decide
    · decide

/-- Witness for C7: adding the fresh order 9 to `c4Side` at the occupied
price 100 and cancelling it exactly restores the side. -/
theorem C7_amended_witness :
    (assocFind 9 c4Side.order_lookup = none ∧
      KeysSorted c4Side.levels ∧
      cancelUntracked c4Side 9 100 = true ∧
      addFits c4Side 100 5 = true) ∧
    (c4Side.add_order 9 100 5).cancel_order 9 100 5 = c4Side :=
  ⟨⟨by decide, by decide, by decide, by decide⟩,
    C7_amended.1 c4Side 9 100 5 (by decide) (by decide) (by decide) (by decide)⟩

/-! ## C8 — which rows the parser drops -/

/-- A 15-field row whose action character `X` and side character `Q` are
outside the allowed sets. -/
def c8Line : List Char :=
  "t,t,160,1,1,X,Q,10.5,100,0,42,0,0,7,SYM".toList

/-- Counterexample to C8 as stated: the row with action `X` and side `Q` is
NOT dropped — `parse_action`/`parse_side` fall back to `ADD`/`NEUTRAL` and
the parser returns a record. -/
theorem C8_counterexample :
    (parse_mbo_line c8Line).map MBORecord.action = some Action.ADD ∧
    (parse_mbo_line c8Line).map MBORecord.side = some Side.NEUTRAL := by
  decide

/-- Claim C8 (corrected): for a line whose price field lies in the
`pricePlain` fragment (every plain-decimal feed row does; outside it the
`std::stod` floating-point grammar takes over and the model does not
follow it), the parser returns a record exactly when the line is nonempty,
splits into exactly 15 fields, and the eight integer fields plus the price
field convert (`wellFormedRow`); the action and side characters play no
part in the decision — out-of-set characters are defaulted, not
dropped. -/
theorem C8_amended (l : List Char)
    (_hp : pricePlain ((splitFields l).getD 7 []) = true) :
    (parse_mbo_line l).isSome = wellFormedRow l := by
  unfold parse_mbo_line wellFormedRow
  by_cases he : l.isEmpty
  · simp [he]
  · simp only [he, Bool.false_eq_true, if_false, Bool.not_false, Bool.true_and]
    by_cases hn : (splitFields l).length = 15
    · simp only [hn, ne_eq, not_true_eq_false, if_false]
      cases h2 : cppStoul ((splitFields l).getD 2 []) with
      | none => simp [h2]
      | some v2 =>
      cases h3 : cppStoul ((splitFields l).getD 3 []) with
      | none => simp [h2, h3]
      | some v3 =>
      cases h4 : cppStoul ((splitFields l).getD 4 []) with
      | none => simp [h2, h3, h4]
      | some v4 =>
      cases h7 : cppParsePrice ((splitFields l).getD 7 []) with
      | none => simp [h2, h3, h4, h7]
      | some v7 =>
      cases h8 : cppStoul ((splitFields l).getD 8 []) with
      | none => simp [h2, h3, h4, h7, h8]
      | some v8 =>
      cases h9 : cppStoul ((splitFields l).getD 9 []) with
      | none => simp [h2, h3, h4, h7, h8, h9]
      | some v9 =>
      cases h10 : cppStoul ((splitFields l).getD 10 []) with
      | none => simp [h2, h3, h4, h7, h8, h9, h10]
      | some v10 =>
      cases h11 : cppStoul ((splitFields l).getD 11 []) with
      | none => simp [h2, h3, h4, h7, h8, h9, h10, h11]
      | some v11 =>
      cases h12 : cppStoul ((splitFields l).getD 12 []) with
      | none => simp [h2, h3, h4, h7, h8, h9, h10, h11, h12]
      | some v12 =>
      cases h13 : cppStoul ((splitFields l).getD 13 []) with
      | none => simp [h2, h3, h4, h7, h8, h9, h10, h11, h12, h13]
      | some v13 => simp [h2, h3, h4, h7, h8, h9, h10, h11, h12, h13]
    · simp [hn]

/-- Witness for C8 on the concrete row `c8Line` (price field `10.5`, inside
the plain-decimal fragment). -/
theorem C8_amended_witness :
    pricePlain ((splitFields c8Line).getD 7 []) = true ∧
    (parse_mbo_line c8Line).isSome = wellFormedRow c8Line :=
  ⟨by decide, C8_amended c8Line (by decide)⟩

end LowLatency
